import Mathlib

/- Shallow embedding of the Trade-Strat-Sim backtesting engine
   (capital management, price-resolution caching, contract selection,
   split-adjusted pricing retrieval and the compounding driver loops).

   Conventions used throughout:
   * Python floats are modelled as exact rationals (`ℚ`), Python ints as `ℤ`/`ℕ`.
   * Dates in `YYYYMMDD` string form are modelled as natural numbers with the
     same digit layout; comparison of eight-digit date strings coincides with
     numeric comparison.
   * Effectful API calls are modelled by passing their parsed responses as
     explicit arguments, so every function is the pure core of the Python
     function of the same name. -/

/-- Python `int(x)` on a float truncates toward zero. -/
def py_int (q : ℚ) : ℤ := if 0 ≤ q then ⌊q⌋ else ⌈q⌉

/-- Python `x if x else 0` applied to an optional numeric field:
    `None` and `0` both collapse to `0`. -/
def orZero (v : Option ℚ) : ℚ := v.getD 0

/-- The distinct error messages produced by the sizing/exit helpers. -/
inductive PSError where
  | invalidInput
  | insufficientCapital
  | zeroContracts
  | invalidContracts
  deriving DecidableEq

namespace capital_management

/-- Result dictionary of `capital_management.calculate_position_size`.
    Fields that some branches of the Python code omit from the returned
    dict are `Option`-valued. -/
structure PositionSize where
  error : Option PSError
  num_contracts : ℤ
  total_cost : Option ℚ
  total_commission : Option ℚ
  leftover_cash : Option ℚ
  capital_utilization : Option ℚ
  deriving DecidableEq

/-- Embedding of `capital_management.calculate_position_size`
    (src/src/backtesting_engine/capital_management.py, lines 13-73). -/
def calculate_position_size (available_capital option_price commission_per_contract : ℚ)
    (max_contracts_per_trade : ℤ) : PositionSize :=
  if available_capital ≤ 0 ∨ option_price ≤ 0 then
    { error := some .invalidInput, num_contracts := 0, total_cost := none,
      total_commission := none, leftover_cash := none, capital_utilization := none }
  else
    let cost_per_contract := option_price * 100 + commission_per_contract
    if available_capital < cost_per_contract then
      { error := some .insufficientCapital, num_contracts := 0, total_cost := some 0,
        total_commission := some 0, leftover_cash := some available_capital,
        capital_utilization := some 0 }
    else
      let num_contracts := min ⌊available_capital / cost_per_contract⌋ max_contracts_per_trade
      if num_contracts = 0 then
        { error := some .zeroContracts, num_contracts := 0, total_cost := some 0,
          total_commission := some 0, leftover_cash := some available_capital,
          capital_utilization := some 0 }
      else
        let total_option_cost := (num_contracts : ℚ) * option_price * 100
        let total_commission := (num_contracts : ℚ) * commission_per_contract
        let grand_total_cost := total_option_cost + total_commission
        { error := none, num_contracts := num_contracts, total_cost := some total_option_cost,
          total_commission := some total_commission,
          leftover_cash := some (available_capital - grand_total_cost),
          capital_utilization := some (grand_total_cost / available_capital * 100) }

/-- Result dictionary of `capital_management.calculate_exit_proceeds`. -/
structure ExitProceeds where
  error : Option PSError
  gross_proceeds : Option ℚ
  exit_commission : Option ℚ
  net_proceeds : Option ℚ
  deriving DecidableEq

/-- Embedding of `capital_management.calculate_exit_proceeds`
    (src/src/backtesting_engine/capital_management.py, lines 75-103). -/
def calculate_exit_proceeds (num_contracts : ℤ) (exit_price commission_per_contract : ℚ) :
    ExitProceeds :=
  if num_contracts ≤ 0 then
    { error := some .invalidContracts, gross_proceeds := none, exit_commission := none,
      net_proceeds := some 0 }
  else
    let gross_proceeds := (num_contracts : ℚ) * exit_price * 100
    let exit_commission := (num_contracts : ℚ) * commission_per_contract
    { error := none, gross_proceeds := some gross_proceeds,
      exit_commission := some exit_commission,
      net_proceeds := some (gross_proceeds - exit_commission) }

end capital_management

namespace run_claude_backtest

/-- Constant `TARGET_CAPITAL_UTILIZATION = 1.0` from scripts/run_claude_backtest.py. -/
def TARGET_CAPITAL_UTILIZATION : ℚ := 1

/-- Result dictionary of the driver-local `calculate_position_size` in
    scripts/run_claude_backtest.py; every branch returns all keys. -/
structure PositionSize where
  num_contracts : ℤ
  total_entry_cost : ℚ
  total_commission : ℚ
  total_cost : ℚ
  leftover_cash : ℚ
  capital_utilization : ℚ
  error : Option PSError
  deriving DecidableEq

/-- Embedding of `calculate_position_size` from scripts/run_claude_backtest.py,
    lines 64-114.  Note: unlike the shared module it prices a contract as
    `entry_price_per_contract + commission` with no 100-share lot multiplier.
    (The `capital_utilization` division by a zero capital, a `ZeroDivisionError`
    in Python, is modelled by rational division's junk value `0`.) -/
def calculate_position_size (available_capital entry_price_per_contract
    commission_per_contract : ℚ) (max_contracts_per_trade : ℤ) : PositionSize :=
  if entry_price_per_contract ≤ 0 then
    { num_contracts := 0, total_entry_cost := 0, total_commission := 0, total_cost := 0,
      leftover_cash := available_capital, capital_utilization := 0,
      error := some .invalidInput }
  else
    let target_capital := available_capital * TARGET_CAPITAL_UTILIZATION
    let cost_per_contract := entry_price_per_contract + commission_per_contract
    let max_affordable := py_int (target_capital / cost_per_contract)
    let num_contracts := min max_affordable max_contracts_per_trade
    let total_entry_cost := (num_contracts : ℚ) * entry_price_per_contract
    let total_commission := (num_contracts : ℚ) * commission_per_contract
    let total_cost := total_entry_cost + total_commission
    { num_contracts := num_contracts, total_entry_cost := total_entry_cost,
      total_commission := total_commission, total_cost := total_cost,
      leftover_cash := available_capital - total_cost,
      capital_utilization := total_cost / available_capital * 100, error := none }

/-- Result of the driver-local `calculate_exit_proceeds` in
    scripts/run_claude_backtest.py (no lot multiplier either). -/
structure ExitProceeds where
  gross_proceeds : ℚ
  exit_commission : ℚ
  net_proceeds : ℚ
  deriving DecidableEq

/-- Embedding of `calculate_exit_proceeds` from scripts/run_claude_backtest.py,
    lines 116-137. -/
def calculate_exit_proceeds (num_contracts : ℤ)
    (exit_price_per_contract commission_per_contract : ℚ) : ExitProceeds :=
  let gross_proceeds := (num_contracts : ℚ) * exit_price_per_contract
  let exit_commission := (num_contracts : ℚ) * commission_per_contract
  { gross_proceeds := gross_proceeds, exit_commission := exit_commission,
    net_proceeds := gross_proceeds - exit_commission }

end run_claude_backtest

namespace gemini_compounding_backtest

/-- Dictionary returned by `find_best_quarterly_option`. -/
structure OptionDetails where
  expiration : ℕ
  strike : ℤ
  stock_price_entry : ℚ
  deriving DecidableEq

/-- Dictionary returned by `get_option_prices`. -/
structure QuarterPrices where
  entry_price : ℚ
  exit_price : ℚ
  deriving DecidableEq

/-- The external data one loop iteration of
    `gemini_compounding_backtest.analyze_year_compounding_quarterly` consumes:
    the two quarter-boundary dates and the responses of the two helper calls. -/
structure QuarterData where
  entry_date : Option ℕ
  exit_date : Option ℕ
  option_details : Option OptionDetails
  prices : Option QuarterPrices
  deriving DecidableEq

/-- One iteration of the quarterly loop of
    `analyze_year_compounding_quarterly` in
    mcp-trader/gemini_compounding_backtest.py, lines 191-237: returns the
    capital after the quarter and whether a trade was executed. -/
def quarter_step (available_capital : ℚ) (q : QuarterData) : ℚ × Bool :=
  match q.entry_date, q.exit_date with
  | some entry_date, some exit_date =>
    if exit_date ≤ entry_date then (available_capital, false)
    else
      match q.option_details with
      | none => (available_capital, false)
      | some _ =>
        match q.prices with
        | none => (available_capital, false)
        | some prices =>
          if prices.entry_price ≤ 0 then (available_capital, false)
          else
            let num_contracts := ⌊available_capital / prices.entry_price⌋
            if num_contracts = 0 then (available_capital, false)
            else
              let total_cost := (num_contracts : ℚ) * prices.entry_price
              let leftover_cash := available_capital - total_cost
              let sale_proceeds := (num_contracts : ℚ) * prices.exit_price
              (sale_proceeds + leftover_cash, true)
  | _, _ => (available_capital, false)

/-- The four-quarter loop of `analyze_year_compounding_quarterly`, folded over
    the per-quarter data; yields the final available capital. -/
def run_quarters (available_capital : ℚ) : List QuarterData → ℚ
  | [] => available_capital
  | q :: rest => run_quarters (quarter_step available_capital q).1 rest

end gemini_compounding_backtest

namespace run_claude_backtest

/-- The per-contract prices of the engine result consumed by the driver's
    quarterly loop (`execute_single_quarterly_trade`'s returned dict carries
    no `error` key, so only a `None` result fails the check in the driver). -/
structure TradeLite where
  entry_price : ℚ
  exit_price : ℚ
  deriving DecidableEq

/-- The external data one iteration of the quarterly loop of
    `analyze_year_compounding_quarterly` in scripts/run_claude_backtest.py
    consumes: quarter-boundary dates, the resolved spot price and the engine's
    trade result. -/
structure QuarterData where
  entry_date : Option ℕ
  exit_date : Option ℕ
  stock_price : Option ℚ
  trade : Option TradeLite
  deriving DecidableEq

/-- Outcome of one loop iteration: `halt` models the `break` taken when the
    quarter's entry date lies beyond the most recent trading day (current
    year); `next` carries the capital into the following quarter. -/
inductive StepOut where
  | halt (capital : ℚ)
  | next (capital : ℚ)
  deriving DecidableEq

/-- The current-year `break` condition at the top of the quarterly loop:
    the quarter's entry date lies beyond the most recent trading day. -/
def is_future_quarter (most_recent_day : Option ℕ) (q : QuarterData) : Bool :=
  match most_recent_day, q.entry_date with
  | some mrd, some e => decide (mrd < e)
  | _, _ => false

/-- The effective exit date after the current-year cap (`exit_date = mrd`
    when the scheduled exit lies beyond the most recent trading day). -/
def effective_exit (most_recent_day : Option ℕ) (q : QuarterData) : Option ℕ :=
  match most_recent_day, q.exit_date with
  | some mrd, some x => some (if mrd < x then mrd else x)
  | _, x => x

/-- One iteration of the quarterly loop of
    `analyze_year_compounding_quarterly` (scripts/run_claude_backtest.py,
    lines 297-424), tracking the available capital. -/
def quarter_step (commission_per_contract : ℚ) (max_contracts_per_trade : ℤ)
    (most_recent_day : Option ℕ) (available_capital : ℚ) (q : QuarterData) : StepOut :=
  if is_future_quarter most_recent_day q then .halt available_capital
  else
    match q.entry_date, effective_exit most_recent_day q with
    | some entry_date, some exit_date =>
      if exit_date ≤ entry_date then .next available_capital
      else
        match q.stock_price with
        | none => .next available_capital
        | some stock_price =>
          if stock_price = 0 then .next available_capital
          else
            match q.trade with
            | none => .next available_capital
            | some trade =>
              let position_info := calculate_position_size available_capital
                trade.entry_price commission_per_contract max_contracts_per_trade
              if position_info.error ≠ none ∨ position_info.num_contracts = 0 then
                .next available_capital
              else
                let exit_info := calculate_exit_proceeds position_info.num_contracts
                  trade.exit_price commission_per_contract
                .next (exit_info.net_proceeds + position_info.leftover_cash)
    | _, _ => .next available_capital

/-- The quarterly loop folded over the four quarters' data; `break` stops the
    fold, every other path continues with the (possibly updated) capital. -/
def run_quarters (commission_per_contract : ℚ) (max_contracts_per_trade : ℤ)
    (most_recent_day : Option ℕ) (available_capital : ℚ) : List QuarterData → ℚ
  | [] => available_capital
  | q :: rest =>
    match quarter_step commission_per_contract max_contracts_per_trade most_recent_day
        available_capital q with
    | .halt c => c
    | .next c =>
      run_quarters commission_per_contract max_contracts_per_trade most_recent_day c rest

end run_claude_backtest

/-- C8: in both compounding drivers, a period in which no trade can be executed
    (missing dates or invalid period, missing spot price, failed contract
    selection or pricing, sizing error or zero affordable contracts) leaves the
    available capital exactly unchanged, and the loop continues with the
    remaining periods instead of aborting. -/
theorem claim_C8_thm (comm : ℚ) (cap : ℤ) (mrd : Option ℕ) (c : ℚ)
    (q : run_claude_backtest.QuarterData) (rest : List run_claude_backtest.QuarterData)
    (g : gemini_compounding_backtest.QuarterData)
    (grest : List gemini_compounding_backtest.QuarterData)
    (Hfut : ∀ m e, mrd = some m → q.entry_date = some e → e ≤ m)
    (Hfail : q.entry_date = none ∨ run_claude_backtest.effective_exit mrd q = none ∨
      (∃ e x, q.entry_date = some e ∧ run_claude_backtest.effective_exit mrd q = some x ∧
        x ≤ e) ∨
      q.stock_price = none ∨ q.stock_price = some 0 ∨ q.trade = none ∨
      (∃ t, q.trade = some t ∧
        ((run_claude_backtest.calculate_position_size c t.entry_price comm cap).error ≠
            none ∨
          (run_claude_backtest.calculate_position_size c t.entry_price comm cap).num_contracts
            = 0)))
    (Hgfail : g.option_details = none ∨ g.prices = none ∨
      (∃ p, g.prices = some p ∧ p.entry_price ≤ 0) ∨
      (∃ p, g.prices = some p ∧ ⌊c / p.entry_price⌋ = 0)) :
    run_claude_backtest.quarter_step comm cap mrd c q = .next c ∧
    run_claude_backtest.run_quarters comm cap mrd c (q :: rest) =
      run_claude_backtest.run_quarters comm cap mrd c rest ∧
    gemini_compounding_backtest.quarter_step c g = (c, false) ∧
    gemini_compounding_backtest.run_quarters c (g :: grest) =
      gemini_compounding_backtest.run_quarters c grest := by
  have hfut : run_claude_backtest.is_future_quarter mrd q = false := by
    unfold run_claude_backtest.is_future_quarter
    cases hm : mrd with
    | none => cases q.entry_date <;> rfl
    | some m =>
      cases hqe : q.entry_date with
      | none => rfl
      | some e => exact decide_eq_false (not_lt.2 (Hfut m e hm hqe))
  have hstep : run_claude_backtest.quarter_step comm cap mrd c q = .next c := by
    unfold run_claude_backtest.quarter_step
    rw [if_neg (by simp [hfut])]
    split
    · rename_i e x hqe hqx
      split
      · rfl
      · rename_i hxe
        split
        · rfl
        · rename_i sp hsp
          split
          · rfl
          · rename_i hsp0
            split
            · rfl
            · rename_i t ht
              dsimp only
              split
              · rfl
              · rename_i hpos
                exfalso
                rcases Hfail with h | h | ⟨e', x', he', hx', hle⟩ | h | h | h | ⟨t', ht', hp⟩
                · rw [h] at hqe; cases hqe
                · rw [h] at hqx; cases hqx
                · rw [he'] at hqe
                  rw [hx'] at hqx
                  cases hqe; cases hqx
                  exact hxe hle
                · rw [h] at hsp; cases hsp
                · rw [h] at hsp
                  cases hsp
                  exact hsp0 rfl
                · rw [h] at ht; cases ht
                · rw [ht'] at ht
                  cases ht
                  exact hpos hp
    · rfl
  have hgstep : gemini_compounding_backtest.quarter_step c g = (c, false) := by
    unfold gemini_compounding_backtest.quarter_step
    split
    · rename_i e x hqe hqx
      split
      · rfl
      · split
        · rfl
        · rename_i hdet
          split
          · rfl
          · rename_i p hp
            split
            · rfl
            · rename_i hep
              dsimp only
              split
              · rfl
              · rename_i hn0
                exfalso
                rcases Hgfail with h | h | ⟨p', hp', hle⟩ | ⟨p', hp', hfl⟩
                · rw [h] at hdet; cases hdet
                · rw [h] at hp; cases hp
                · rw [hp'] at hp
                  cases hp
                  exact hep hle
                · rw [hp'] at hp
                  cases hp
                  exact hn0 hfl
    · rfl
  refine ⟨hstep, ?_, hgstep, ?_⟩
  · show (match run_claude_backtest.quarter_step comm cap mrd c q with
      | .halt c' => c'
      | .next c' => run_claude_backtest.run_quarters comm cap mrd c' rest) =
      run_claude_backtest.run_quarters comm cap mrd c rest
    rw [hstep]
  · show gemini_compounding_backtest.run_quarters
        (gemini_compounding_backtest.quarter_step c g).1 grest =
      gemini_compounding_backtest.run_quarters c grest
    rw [hgstep]

/-- C8 witness: a quarter whose engine trade result is missing (Claude driver)
    and a quarter whose contract selection fails (Gemini driver) both carry
    100000 of capital through unchanged. -/
theorem claim_C8_witness :
    run_claude_backtest.quarter_step 0.35 999999 none 100000
      ⟨some 20240102, some 20240328, some 170, none⟩ = .next 100000 ∧
    run_claude_backtest.run_quarters 0.35 999999 none 100000
      [⟨some 20240102, some 20240328, some 170, none⟩] =
      run_claude_backtest.run_quarters 0.35 999999 none 100000 [] ∧
    gemini_compounding_backtest.quarter_step 100000
      ⟨some 20240102, some 20240328, none, none⟩ = (100000, false) ∧
    gemini_compounding_backtest.run_quarters 100000
      [⟨some 20240102, some 20240328, none, none⟩] =
      gemini_compounding_backtest.run_quarters 100000 [] :=
  claim_C8_thm 0.35 999999 none 100000
    ⟨some 20240102, some 20240328, some 170, none⟩ []
    ⟨some 20240102, some 20240328, none, none⟩ []
    (by intro m e hm _; cases hm)
    (Or.inr (Or.inr (Or.inr (Or.inr (Or.inr (Or.inl rfl))))))
    (Or.inl rfl)

namespace accurate_optimized_leaps

/-- A calendar date, as Python's `datetime.date`. -/
structure DateD where
  year : ℕ
  month : ℕ
  day : ℕ
  deriving DecidableEq

/-- Gregorian leap-year rule. -/
def is_leap_year (y : ℕ) : Bool :=
  decide ((y % 4 = 0 ∧ ¬ y % 100 = 0) ∨ y % 400 = 0)

/-- Number of days in a month of a given year. -/
def days_in_month (y m : ℕ) : ℕ :=
  if m = 2 then (if is_leap_year y then 29 else 28)
  else if m = 4 ∨ m = 6 ∨ m = 9 ∨ m = 11 then 30
  else 31

/-- Days in the year strictly before month `m`. -/
def days_before_month (y m : ℕ) : ℕ :=
  (List.range (m - 1)).foldl (fun acc i => acc + days_in_month y (i + 1)) 0

/-- Python's `date.toordinal`: day number in the proleptic Gregorian calendar
    with `0001-01-01` as day 1.  Differences of ordinals are exactly
    `timedelta.days`, and comparison of valid dates coincides with comparison
    of their ordinals. -/
def toordinal (d : DateD) : ℕ :=
  365 * (d.year - 1) + (d.year - 1) / 4 - (d.year - 1) / 100 + (d.year - 1) / 400 +
    days_before_month d.year d.month + d.day

/-- `dateutil.relativedelta(months=k)` addition: advance `k` months and clamp
    the day to the target month's length. -/
def add_months (d : DateD) (k : ℕ) : DateD :=
  let t := d.month - 1 + k
  let y := d.year + t / 12
  let m := t % 12 + 1
  ⟨y, m, min d.day (days_in_month y m)⟩

/-- `datetime.strptime(s, "%Y%m%d").date()` on an eight-digit numeral:
    `None` models the `ValueError` path that the callers catch and skip. -/
def parse_ymd (s : ℕ) : Option DateD :=
  let y := s / 10000
  let m := s / 100 % 100
  let d := s % 100
  if 10000000 ≤ s ∧ s < 100000000 ∧ 1 ≤ m ∧ m ≤ 12 ∧ 1 ≤ d ∧ d ≤ days_in_month y m then
    some ⟨y, m, d⟩
  else none

/-- `date.strftime("%Y%m%d")` back to the numeric form. -/
def format_ymd (d : DateD) : ℕ := d.year * 10000 + d.month * 100 + d.day

/-- Ordinal of an eight-digit date numeral (0 for unparseable input, which in
    Python would raise before reaching any date arithmetic). -/
def ord8 (s : ℕ) : ℕ :=
  match parse_ymd s with
  | some d => toordinal d
  | none => 0

/-- The `contract` sub-dictionary of a bulk response item. -/
structure OptionContractInfo where
  strike : ℤ
  right : String
  deriving DecidableEq

/-- One item of a bulk end-of-day / bulk at-time response: the contract (an
    empty dict is modelled as `none`) and its tick rows, each row a list of
    possibly-null numeric fields. -/
structure BulkItem where
  contract : Option OptionContractInfo
  ticks : List (List (Option ℚ))
  deriving DecidableEq

/-- One element of the list built by `filter_itm_calls_from_bulk`. -/
structure ValidCall where
  strike : ℤ
  distance : ℚ
  close : ℚ
  bid : ℚ
  ask : ℚ
  data_quality : String
  deriving DecidableEq

/-- The loop body of `filter_itm_calls_from_bulk`
    (src/src/backtesting_engine/accurate_optimized_leaps.py, lines 163-181):
    `none` for every skipped item. -/
def itm_call_of (stock_price_millidollars : ℚ) (cd : BulkItem) : Option ValidCall :=
  match cd.contract, cd.ticks with
  | some contract, tick :: _ =>
    if tick.length < 17 then none
    else
      let close_price := orZero (tick.getD 5 none)
      let bid := orZero (tick.getD 10 none)
      let ask := orZero (tick.getD 14 none)
      if contract.right ≠ "C" then none
      else if (contract.strike : ℚ) < stock_price_millidollars then
        if 0 < close_price ∨ (0 < bid ∧ 0 < ask) then
          some ⟨contract.strike, |(contract.strike : ℚ) - stock_price_millidollars|,
            close_price, bid, ask, if 0 < close_price then "excellent" else "good"⟩
        else none
      else none
  | _, _ => none

/-- Embedding of `filter_itm_calls_from_bulk`
    (src/src/backtesting_engine/accurate_optimized_leaps.py, lines 159-184):
    keep eligible in-the-money calls and sort ascending by distance from spot
    (Python's stable `list.sort(key=...)` is modelled by insertion sort with a
    `≤` comparison on the key). -/
def filter_itm_calls_from_bulk (bulk_data : List BulkItem) (stock_price : ℚ) :
    List ValidCall :=
  let stock_price_millidollars := stock_price * 1000
  let valid_calls := bulk_data.filterMap (itm_call_of stock_price_millidollars)
  List.insertionSort (fun a b => a.distance ≤ b.distance) valid_calls

/-- Embedding of `extract_precise_entry_price_from_bulk`
    (src/src/backtesting_engine/accurate_optimized_leaps.py, lines 196-217):
    scan the at-time quotes for the target call strike; prefer a positive ask,
    fall back to a positive bid, otherwise keep scanning. -/
def extract_precise_entry_price_from_bulk (bulk_quotes : List BulkItem)
    (target_strike : ℤ) : Option ℚ :=
  match bulk_quotes with
  | [] => none
  | cd :: rest =>
    match cd.contract, cd.ticks with
    | some contract, tick :: _ =>
      if contract.strike = target_strike ∧ contract.right = "C" ∧ 8 ≤ tick.length then
        let bid := orZero (tick.getD 3 none)
        let ask := orZero (tick.getD 7 none)
        if 0 < ask then some ask
        else if 0 < bid then some bid
        else extract_precise_entry_price_from_bulk rest target_strike
      else extract_precise_entry_price_from_bulk rest target_strike
    | _, _ => extract_precise_entry_price_from_bulk rest target_strike

/-- Embedding of `get_exit_price_individual`
    (src/src/backtesting_engine/accurate_optimized_leaps.py, lines 219-237),
    applied to the parsed `response` rows of the single-contract EOD query:
    prefer a positive close, fall back to a positive bid, return exactly `0`
    for an all-zero record (worthless contract), `none` when no usable record
    exists. -/
def get_exit_price_individual (response : List (List (Option ℚ))) : Option ℚ :=
  match response with
  | [] => none
  | exit_record :: _ =>
    if exit_record.length < 17 then none
    else
      let close_price := orZero (exit_record.getD 5 none)
      let bid_price := orZero (exit_record.getD 10 none)
      if 0 < close_price then some close_price
      else if 0 < bid_price then some bid_price
      else if close_price = 0 then some 0
      else none

end accurate_optimized_leaps

namespace accurate_optimized_leaps

instance : IsTotal ValidCall (fun a b => a.distance ≤ b.distance) :=
  ⟨fun a b => le_total a.distance b.distance⟩

instance : IsTrans ValidCall (fun a b => a.distance ≤ b.distance) :=
  ⟨fun _ _ _ h1 h2 => le_trans h1 h2⟩

end accurate_optimized_leaps

/-- Case analysis of one step of the ITM filter: whatever the filter keeps is
    an eligible in-the-money call of the bulk item. -/
theorem accurate_optimized_leaps.itm_call_of_eq_some (sp : ℚ)
    (cd : accurate_optimized_leaps.BulkItem) (c : accurate_optimized_leaps.ValidCall)
    (hf : accurate_optimized_leaps.itm_call_of sp cd = some c) :
    (c.strike : ℚ) < sp ∧ (0 < c.close ∨ (0 < c.bid ∧ 0 < c.ask)) ∧
    c.distance = |(c.strike : ℚ) - sp| ∧
    ∃ k, cd.contract = some k ∧ k.right = "C" ∧ c.strike = k.strike := by
  unfold accurate_optimized_leaps.itm_call_of at hf
  split at hf
  · rename_i contract tick tickrest heq hticks
    by_cases h17 : tick.length < 17
    · rw [if_pos h17] at hf; exact Option.noConfusion hf
    · rw [if_neg h17] at hf
      dsimp only at hf
      by_cases hright : contract.right ≠ "C"
      · rw [if_pos hright] at hf; exact Option.noConfusion hf
      · rw [if_neg hright] at hf
        by_cases hstrike : (contract.strike : ℚ) < sp
        · rw [if_pos hstrike] at hf
          by_cases hgate : 0 < orZero (tick.getD 5 none) ∨
              (0 < orZero (tick.getD 10 none) ∧ 0 < orZero (tick.getD 14 none))
          · rw [if_pos hgate] at hf
            rw [Option.some.injEq] at hf
            subst hf
            exact ⟨hstrike, hgate, rfl, contract, heq, not_ne_iff.mp hright, rfl⟩
          · rw [if_neg hgate] at hf; exact Option.noConfusion hf
        · rw [if_neg hstrike] at hf; exact Option.noConfusion hf
  · exact Option.noConfusion hf

/-- C6: every contract returned by the ITM filter stems from a call contract of
    the bulk response, has a strike strictly below the spot price in
    thousandths-of-a-dollar fixed point (so never ≥ the spot), passes the
    data-quality gate (positive close, or positive bid and ask), carries the
    absolute fixed-point distance from spot, and the returned list is sorted
    ascending by that distance. -/
theorem claim_C6_thm (bulk_data : List accurate_optimized_leaps.BulkItem)
    (stock_price : ℚ) :
    (∀ c ∈ accurate_optimized_leaps.filter_itm_calls_from_bulk bulk_data stock_price,
      (c.strike : ℚ) < stock_price * 1000 ∧
      (0 < c.close ∨ (0 < c.bid ∧ 0 < c.ask)) ∧
      c.distance = |(c.strike : ℚ) - stock_price * 1000| ∧
      (∃ cd ∈ bulk_data, ∃ k, cd.contract = some k ∧ k.right = "C" ∧
        c.strike = k.strike)) ∧
    List.Sorted (fun a b => a.distance ≤ b.distance)
      (accurate_optimized_leaps.filter_itm_calls_from_bulk bulk_data stock_price) := by
  constructor
  · intro c hc
    unfold accurate_optimized_leaps.filter_itm_calls_from_bulk at hc
    rw [List.mem_insertionSort, List.mem_filterMap] at hc
    obtain ⟨cd, hcd, hf⟩ := hc
    obtain ⟨h1, h2, h3, k, hk, hkr, hks⟩ :=
      accurate_optimized_leaps.itm_call_of_eq_some _ cd c hf
    exact ⟨h1, h2, h3, cd, hcd, k, hk, hkr, hks⟩
  · exact List.sorted_insertionSort _ _

/-- C6 witness: a singleton bulk response with a call at strike 165.00 against
    spot 170 passes the filter, and the theorem's guarantees hold for it. -/
theorem claim_C6_witness :
    ((accurate_optimized_leaps.ValidCall.mk 165000 |(165000 : ℚ) - 170 * 1000| 12 0 0
        "excellent").strike : ℚ) < 170 * 1000 ∧
    (0 < (accurate_optimized_leaps.ValidCall.mk 165000 |(165000 : ℚ) - 170 * 1000| 12 0 0
        "excellent").close ∨
      (0 < (accurate_optimized_leaps.ValidCall.mk 165000 |(165000 : ℚ) - 170 * 1000| 12 0 0
        "excellent").bid ∧
       0 < (accurate_optimized_leaps.ValidCall.mk 165000 |(165000 : ℚ) - 170 * 1000| 12 0 0
        "excellent").ask)) ∧
    (accurate_optimized_leaps.ValidCall.mk 165000 |(165000 : ℚ) - 170 * 1000| 12 0 0
        "excellent").distance =
      |((accurate_optimized_leaps.ValidCall.mk 165000 |(165000 : ℚ) - 170 * 1000| 12 0 0
        "excellent").strike : ℚ) - 170 * 1000| ∧
    (∃ cd ∈ [accurate_optimized_leaps.BulkItem.mk (some ⟨165000, "C"⟩)
        [[none, none, none, none, none, some 12, none, none, none, none, some 0,
          none, none, none, some 0, none, none]]], ∃ k,
      cd.contract = some k ∧ k.right = "C" ∧
      (accurate_optimized_leaps.ValidCall.mk 165000 |(165000 : ℚ) - 170 * 1000| 12 0 0
        "excellent").strike = k.strike) := by
  have hf : accurate_optimized_leaps.itm_call_of (170 * 1000)
      (accurate_optimized_leaps.BulkItem.mk (some ⟨165000, "C"⟩)
        [[none, none, none, none, none, some 12, none, none, none, none, some 0,
          none, none, none, some 0, none, none]]) =
      some (accurate_optimized_leaps.ValidCall.mk 165000 |(165000 : ℚ) - 170 * 1000| 12 0 0
        "excellent") := by
    simp only [accurate_optimized_leaps.itm_call_of]
    norm_num [orZero, List.getD_cons_zero, List.getD_cons_succ]
  have hmem : accurate_optimized_leaps.ValidCall.mk 165000 |(165000 : ℚ) - 170 * 1000| 12 0 0
      "excellent" ∈
      accurate_optimized_leaps.filter_itm_calls_from_bulk
        [accurate_optimized_leaps.BulkItem.mk (some ⟨165000, "C"⟩)
          [[none, none, none, none, none, some 12, none, none, none, none, some 0,
            none, none, none, some 0, none, none]]] 170 := by
    unfold accurate_optimized_leaps.filter_itm_calls_from_bulk
    rw [List.mem_insertionSort, List.mem_filterMap]
    exact ⟨_, List.mem_singleton_self _, hf⟩
  exact (claim_C6_thm
    [accurate_optimized_leaps.BulkItem.mk (some ⟨165000, "C"⟩)
      [[none, none, none, none, none, some 12, none, none, none, none, some 0,
        none, none, none, some 0, none, none]]] 170).1 _ hmem

/-- C7: exit-price retrieval prefers a positive close, falls back to a positive
    bid, returns exactly 0 for a record whose values are all zero or absent
    (a worthless contract, a value distinct from the `none` failure), and
    returns `none` when no end-of-day record exists. -/
theorem claim_C7_thm (response : List (List (Option ℚ))) (exit_record : List (Option ℚ))
    (rest : List (List (Option ℚ))) :
    accurate_optimized_leaps.get_exit_price_individual [] = none ∧
    (response = exit_record :: rest → 17 ≤ exit_record.length →
      ((0 < orZero (exit_record.getD 5 none) →
        accurate_optimized_leaps.get_exit_price_individual response =
          some (orZero (exit_record.getD 5 none))) ∧
      (¬ 0 < orZero (exit_record.getD 5 none) → 0 < orZero (exit_record.getD 10 none) →
        accurate_optimized_leaps.get_exit_price_individual response =
          some (orZero (exit_record.getD 10 none))) ∧
      ((∀ v ∈ exit_record, orZero v = 0) →
        accurate_optimized_leaps.get_exit_price_individual response = some 0 ∧
        accurate_optimized_leaps.get_exit_price_individual response ≠ none))) := by
  refine ⟨rfl, ?_⟩
  rintro rfl h17
  have hlen : ¬ exit_record.length < 17 := not_lt.2 h17
  refine ⟨?_, ?_, ?_⟩
  · intro hclose
    unfold accurate_optimized_leaps.get_exit_price_individual
    dsimp only
    rw [if_neg hlen]
    rw [if_pos hclose]
  · intro hclose hbid
    unfold accurate_optimized_leaps.get_exit_price_individual
    dsimp only
    rw [if_neg hlen]
    rw [if_neg hclose, if_pos hbid]
  · intro hzero
    have h5 : orZero (exit_record.getD 5 none) = 0 := by
      have hm : exit_record.getD 5 none ∈ exit_record := by
        rw [List.getD_eq_getElem exit_record none (by omega)]
        exact List.getElem_mem _
      exact hzero _ hm
    have h10 : orZero (exit_record.getD 10 none) = 0 := by
      have hm : exit_record.getD 10 none ∈ exit_record := by
        rw [List.getD_eq_getElem exit_record none (by omega)]
        exact List.getElem_mem _
      exact hzero _ hm
    have hres : accurate_optimized_leaps.get_exit_price_individual
        (exit_record :: rest) = some 0 := by
      unfold accurate_optimized_leaps.get_exit_price_individual
      dsimp only
      rw [if_neg hlen]
      rw [if_neg (by rw [h5]; exact lt_irrefl 0), if_neg (by rw [h10]; exact lt_irrefl 0),
        if_pos h5]
    exact ⟨hres, by rw [hres]; exact Option.noConfusion⟩

/-- C7 witness: an all-`None` 17-field record yields the worthless price 0,
    and a positive close is preferred when present. -/
theorem claim_C7_witness :
    accurate_optimized_leaps.get_exit_price_individual [] = none ∧
    (([List.replicate 17 (none : Option ℚ)] :
        List (List (Option ℚ))) = List.replicate 17 (none : Option ℚ) :: [] →
      17 ≤ (List.replicate 17 (none : Option ℚ)).length →
      ((0 < orZero ((List.replicate 17 (none : Option ℚ)).getD 5 none) →
        accurate_optimized_leaps.get_exit_price_individual
            [List.replicate 17 (none : Option ℚ)] =
          some (orZero ((List.replicate 17 (none : Option ℚ)).getD 5 none))) ∧
      (¬ 0 < orZero ((List.replicate 17 (none : Option ℚ)).getD 5 none) →
        0 < orZero ((List.replicate 17 (none : Option ℚ)).getD 10 none) →
        accurate_optimized_leaps.get_exit_price_individual
            [List.replicate 17 (none : Option ℚ)] =
          some (orZero ((List.replicate 17 (none : Option ℚ)).getD 10 none))) ∧
      ((∀ v ∈ List.replicate 17 (none : Option ℚ), orZero v = 0) →
        accurate_optimized_leaps.get_exit_price_individual
            [List.replicate 17 (none : Option ℚ)] = some 0 ∧
        accurate_optimized_leaps.get_exit_price_individual
            [List.replicate 17 (none : Option ℚ)] ≠ none))) :=
  claim_C7_thm [List.replicate 17 (none : Option ℚ)]
    (List.replicate 17 (none : Option ℚ)) []

namespace accurate_optimized_leaps

/-- Python's `min(iterable, key=...)`: scan left to right, replacing the
    current best only on a strictly smaller key, so the FIRST minimiser wins. -/
def py_min_by {α : Type} (key : α → ℤ) : α → List α → α
  | best, [] => best
  | best, x :: xs => py_min_by key (if key x < key best then x else best) xs

/-- `py_min_by` returns an element of the list with a minimal key. -/
theorem py_min_by_min {α : Type} (key : α → ℤ) (b : α) (l : List α) :
    py_min_by key b l ∈ b :: l ∧ ∀ x ∈ b :: l, key (py_min_by key b l) ≤ key x := by
  induction l generalizing b with
  | nil =>
    constructor
    · exact List.mem_singleton_self b
    · intro x hx
      rw [List.mem_singleton] at hx
      subst hx
      exact le_refl _
  | cons x xs ih =>
    rw [py_min_by]
    obtain ⟨hm, hle⟩ := ih (if key x < key b then x else b)
    have hb' : key (py_min_by key (if key x < key b then x else b) xs) ≤
        key (if key x < key b then x else b) :=
      hle _ (List.mem_cons_self _ _)
    have hPb : key (py_min_by key (if key x < key b then x else b) xs) ≤ key b := by
      by_cases hxb : key x < key b
      · rw [if_pos hxb] at hb' ⊢; omega
      · rw [if_neg hxb] at hb' ⊢; omega
    have hPx : key (py_min_by key (if key x < key b then x else b) xs) ≤ key x := by
      by_cases hxb : key x < key b
      · rw [if_pos hxb] at hb' ⊢; omega
      · rw [if_neg hxb] at hb' ⊢; omega
    constructor
    · rcases List.mem_cons.mp hm with h | h
      · by_cases hxb : key x < key b
        · rw [if_pos hxb] at h ⊢
          rw [h]
          exact List.mem_cons_of_mem _ (List.mem_cons_self _ _)
        · rw [if_neg hxb] at h ⊢
          rw [h]
          exact List.mem_cons_self _ _
      · exact List.mem_cons_of_mem _ (List.mem_cons_of_mem _ h)
    · intro y hy
      rcases List.mem_cons.mp hy with h | h
      · rw [h]; exact hPb
      · rcases List.mem_cons.mp h with h' | h'
        · rw [h']; exact hPx
        · exact hle y (List.mem_cons_of_mem _ h')

/-- `py_min_by` returns the FIRST element attaining the minimal key: scanning
    the list, it is the first element whose key is ≤ the minimum. -/
theorem py_min_by_first {α : Type} (key : α → ℤ) (b : α) (l : List α) :
    (b :: l).find? (fun e => decide (key e ≤ key (py_min_by key b l))) =
      some (py_min_by key b l) := by
  induction l generalizing b with
  | nil =>
    rw [py_min_by]
    exact List.find?_cons_of_pos _ (decide_eq_true (le_refl _))
  | cons x xs ih =>
    rw [py_min_by]
    have hmin := py_min_by_min key (if key x < key b then x else b) xs
    have hb' : key (py_min_by key (if key x < key b then x else b) xs) ≤
        key (if key x < key b then x else b) :=
      hmin.2 _ (List.mem_cons_self _ _)
    by_cases hxb : key x < key b
    · rw [if_pos hxb] at hb' ⊢
      by_cases hb : key b ≤ key (py_min_by key x xs)
      · exfalso
        omega
      · rw [List.find?_cons_of_neg _ (by rw [decide_eq_false hb]; exact Bool.false_ne_true)]
        exact ih x
    · rw [if_neg hxb] at hb' ⊢
      by_cases hb : key b ≤ key (py_min_by key b xs)
      · have hih := ih b
        have h2 : List.find? (fun e => decide (key e ≤ key (py_min_by key b xs))) (b :: xs)
            = some b := List.find?_cons_of_pos _ (decide_eq_true hb)
        have hbP : b = py_min_by key b xs := Option.some.inj (h2.symm.trans hih)
        rw [← hbP]
        exact List.find?_cons_of_pos _ (decide_eq_true (le_refl _))
      · rw [List.find?_cons_of_neg _ (by rw [decide_eq_false hb]; exact Bool.false_ne_true)]
        have hih := ih b
        have h3 : List.find? (fun e => decide (key e ≤ key (py_min_by key b xs))) (b :: xs)
            = List.find? (fun e => decide (key e ≤ key (py_min_by key b xs))) xs :=
          List.find?_cons_of_neg _ (by rw [decide_eq_false hb]; exact Bool.false_ne_true)
        have hxs := h3.symm.trans hih
        have hnx : ¬ key x ≤ key (py_min_by key b xs) := by omega
        rw [List.find?_cons_of_neg _
          (by rw [decide_eq_false hnx]; exact Bool.false_ne_true)]
        exact hxs

/-- Embedding of `find_closest_expiration_date`
    (src/src/backtesting_engine/accurate_optimized_leaps.py, lines 61-65):
    Python's `min(..., key=lambda x: abs((x - target_date).days))`. -/
def find_closest_expiration_date (available_expirations : List DateD)
    (target_date : DateD) : Option DateD :=
  match available_expirations with
  | [] => none
  | x :: xs =>
    some (py_min_by
      (fun e => |(toordinal e : ℤ) - (toordinal target_date : ℤ)|) x xs)

/-- The 15-month expiration-selection step of `execute_single_quarterly_trade`
    (src/src/backtesting_engine/accurate_optimized_leaps.py, lines 345-364),
    shared verbatim by `find_best_quarterly_option` in
    mcp-trader/gemini_compounding_backtest.py: keep expirations at least 365
    days out, then take the one closest to entry + 15 months. -/
def select_leaps_expiration (all_available_expirations : List DateD)
    (entry_dt : DateD) : Option DateD :=
  let target_15_months := add_months entry_dt 15
  let one_year_later := toordinal entry_dt + 365
  let leaps_expirations := all_available_expirations.filter
    (fun e => decide (one_year_later ≤ toordinal e))
  find_closest_expiration_date leaps_expirations target_15_months

end accurate_optimized_leaps

/-- C5: 15-month rolling selection keeps only expirations at least 365 days
    after the entry date; among those it picks one at minimal absolute
    day-distance from entry + 15 months, ties going to the first such
    expiration in list order; if none qualifies, selection fails. -/
theorem claim_C5_thm (exps : List accurate_optimized_leaps.DateD)
    (entry_dt : accurate_optimized_leaps.DateD) (hne : exps ≠ []) :
    ((exps.filter (fun e => decide (accurate_optimized_leaps.toordinal entry_dt + 365 ≤
        accurate_optimized_leaps.toordinal e)) = []) →
      accurate_optimized_leaps.select_leaps_expiration exps entry_dt = none) ∧
    (∀ chosen, accurate_optimized_leaps.select_leaps_expiration exps entry_dt = some chosen →
      chosen ∈ exps ∧
      accurate_optimized_leaps.toordinal entry_dt + 365 ≤
        accurate_optimized_leaps.toordinal chosen ∧
      (∀ e ∈ exps, accurate_optimized_leaps.toordinal entry_dt + 365 ≤
          accurate_optimized_leaps.toordinal e →
        |(accurate_optimized_leaps.toordinal chosen : ℤ) -
            accurate_optimized_leaps.toordinal (accurate_optimized_leaps.add_months entry_dt 15)| ≤
        |(accurate_optimized_leaps.toordinal e : ℤ) -
            accurate_optimized_leaps.toordinal (accurate_optimized_leaps.add_months entry_dt 15)|) ∧
      (exps.filter (fun e => decide (accurate_optimized_leaps.toordinal entry_dt + 365 ≤
          accurate_optimized_leaps.toordinal e))).find?
        (fun e => decide (|(accurate_optimized_leaps.toordinal e : ℤ) -
            accurate_optimized_leaps.toordinal (accurate_optimized_leaps.add_months entry_dt 15)| ≤
          |(accurate_optimized_leaps.toordinal chosen : ℤ) -
            accurate_optimized_leaps.toordinal (accurate_optimized_leaps.add_months entry_dt 15)|))
        = some chosen) := by
  unfold accurate_optimized_leaps.select_leaps_expiration
  dsimp only
  cases hfl : exps.filter (fun e => decide (accurate_optimized_leaps.toordinal entry_dt + 365 ≤
      accurate_optimized_leaps.toordinal e)) with
  | nil =>
    exact ⟨fun _ => rfl, fun chosen hch => Option.noConfusion hch⟩
  | cons x xs =>
    constructor
    · intro h
      exact absurd h (by simp)
    · intro chosen hch
      unfold accurate_optimized_leaps.find_closest_expiration_date at hch
      rw [Option.some.injEq] at hch
      subst hch
      have hmin := accurate_optimized_leaps.py_min_by_min
        (fun e => |(accurate_optimized_leaps.toordinal e : ℤ) -
          accurate_optimized_leaps.toordinal (accurate_optimized_leaps.add_months entry_dt 15)|)
        x xs
      have hmem : accurate_optimized_leaps.py_min_by
          (fun e => |(accurate_optimized_leaps.toordinal e : ℤ) -
            accurate_optimized_leaps.toordinal (accurate_optimized_leaps.add_months entry_dt 15)|)
          x xs ∈ exps.filter (fun e =>
            decide (accurate_optimized_leaps.toordinal entry_dt + 365 ≤
              accurate_optimized_leaps.toordinal e)) := by
        rw [hfl]
        exact hmin.1
      have hmem' := List.mem_filter.mp hmem
      refine ⟨hmem'.1, of_decide_eq_true hmem'.2, ?_, ?_⟩
      · intro e he h365
        have : e ∈ x :: xs := by
          rw [← hfl]
          exact List.mem_filter.mpr ⟨he, decide_eq_true h365⟩
        exact hmin.2 e this
      · exact accurate_optimized_leaps.py_min_by_first _ x xs

/-- C5 witness: from expirations 2024-06-21, 2025-01-17, 2025-06-20 and
    2026-01-16 on entry 2024-01-02, the 365-day floor drops the June 2024
    expiration and the January 2025 expiration is closest to the 15-month
    target 2025-04-02. -/
theorem claim_C5_witness :
    (⟨2025, 1, 17⟩ : accurate_optimized_leaps.DateD) ∈
      ([⟨2024, 6, 21⟩, ⟨2025, 1, 17⟩, ⟨2025, 6, 20⟩, ⟨2026, 1, 16⟩] :
        List accurate_optimized_leaps.DateD) ∧
    accurate_optimized_leaps.toordinal ⟨2024, 1, 2⟩ + 365 ≤
      accurate_optimized_leaps.toordinal ⟨2025, 1, 17⟩ ∧
    (∀ e ∈ ([⟨2024, 6, 21⟩, ⟨2025, 1, 17⟩, ⟨2025, 6, 20⟩, ⟨2026, 1, 16⟩] :
        List accurate_optimized_leaps.DateD),
      accurate_optimized_leaps.toordinal ⟨2024, 1, 2⟩ + 365 ≤
        accurate_optimized_leaps.toordinal e →
      |(accurate_optimized_leaps.toordinal (⟨2025, 1, 17⟩ :
          accurate_optimized_leaps.DateD) : ℤ) -
          accurate_optimized_leaps.toordinal
            (accurate_optimized_leaps.add_months ⟨2024, 1, 2⟩ 15)| ≤
      |(accurate_optimized_leaps.toordinal e : ℤ) -
          accurate_optimized_leaps.toordinal
            (accurate_optimized_leaps.add_months ⟨2024, 1, 2⟩ 15)|) ∧
    (([⟨2024, 6, 21⟩, ⟨2025, 1, 17⟩, ⟨2025, 6, 20⟩, ⟨2026, 1, 16⟩] :
        List accurate_optimized_leaps.DateD).filter (fun e =>
          decide (accurate_optimized_leaps.toordinal ⟨2024, 1, 2⟩ + 365 ≤
            accurate_optimized_leaps.toordinal e))).find?
      (fun e => decide (|(accurate_optimized_leaps.toordinal e : ℤ) -
          accurate_optimized_leaps.toordinal
            (accurate_optimized_leaps.add_months ⟨2024, 1, 2⟩ 15)| ≤
        |(accurate_optimized_leaps.toordinal (⟨2025, 1, 17⟩ :
            accurate_optimized_leaps.DateD) : ℤ) -
          accurate_optimized_leaps.toordinal
            (accurate_optimized_leaps.add_months ⟨2024, 1, 2⟩ 15)|))
      = some ⟨2025, 1, 17⟩ :=
  (claim_C5_thm [⟨2024, 6, 21⟩, ⟨2025, 1, 17⟩, ⟨2025, 6, 20⟩, ⟨2026, 1, 16⟩]
    ⟨2024, 1, 2⟩ (by simp)).2 ⟨2025, 1, 17⟩ (by decide)

namespace accurate_optimized_leaps

/-- A known corporate action from the hard-coded split table. -/
structure SplitInfo where
  split_date : ℕ
  split_ratio : ℤ
  deriving DecidableEq

/-- Embedding of `detect_stock_split`
    (src/src/backtesting_engine/accurate_optimized_leaps.py, lines 101-107):
    the hard-coded table holds exactly GOOG's 20:1 split on 2022-07-15, and a
    split is reported when `entry_date <= split_date <= exit_date` (string
    comparison on eight-digit dates, i.e. numeric comparison). -/
def detect_stock_split (symbol : String) (entry_date exit_date : ℕ) : Option SplitInfo :=
  if symbol = "GOOG" ∧ entry_date ≤ 20220715 ∧ 20220715 ≤ exit_date then
    some ⟨20220715, 20⟩
  else none

/-- The exit-lookup strike: `original_strike // split_ratio` (Python floor
    division) when the holding window spans a split, unchanged otherwise. -/
def split_adjust_strike (split_info : Option SplitInfo) (strike : ℤ) : ℤ :=
  match split_info with
  | some si => Int.fdiv strike si.split_ratio
  | none => strike

/-- The split post-processing of the retrieved exit price:
    `exit_price *= split_ratio` when the holding window spans a split. -/
def split_adjust_exit_price (split_info : Option SplitInfo) (price : ℚ) : ℚ :=
  match split_info with
  | some si => price * (si.split_ratio : ℚ)
  | none => price

/-- Embedding of `get_january_expirations`
    (src/src/backtesting_engine/accurate_optimized_leaps.py, lines 109-124):
    keep the listed expirations that parse as dates in January of `year + 1`
    strictly after the entry date (unparseable entries are skipped), sorted
    ascending. -/
def get_january_expirations (expirations_response : List ℕ) (year : ℕ)
    (entry_date : ℕ) : List ℕ :=
  let january_exps := expirations_response.filter (fun e =>
    match parse_ymd e with
    | some d => decide (d.year = year + 1 ∧ d.month = 1 ∧ entry_date < e)
    | none => false)
  List.insertionSort (· ≤ ·) january_exps

/-- The dictionary built for a successful annual-January LEAPS trade
    (Greeks, fetched best-effort for reporting only, are omitted). -/
structure AnnualTrade where
  expiration : ℕ
  months_to_exp : ℚ
  original_strike : ℤ
  exit_strike : ℤ
  entry_price : ℚ
  exit_price : ℚ
  pnl_per_contract : ℚ
  return_pct : ℚ
  split_info : Option SplitInfo
  deriving DecidableEq

/-- The candidate loop of `find_optimal_leaps_annual_january`
    (src/src/backtesting_engine/accurate_optimized_leaps.py, lines 252-313).
    The oracles `eod`, `quotes` and `exit_eod` are the parsed responses of
    `get_bulk_eod_data`, `get_bulk_at_time_quotes` and the exit EOD query for
    each probed expiration (and, for `exit_eod`, exit-lookup strike). -/
def annual_probe (eod : ℕ → Option (List BulkItem)) (quotes : ℕ → List BulkItem)
    (exit_eod : ℕ → ℤ → List (List (Option ℚ))) (split_info : Option SplitInfo)
    (entry_date : ℕ) (stock_price : ℚ) : List ℕ → Option AnnualTrade
  | [] => none
  | exp_date :: rest =>
    match eod exp_date with
    | none => annual_probe eod quotes exit_eod split_info entry_date stock_price rest
    | some bulk =>
      match filter_itm_calls_from_bulk bulk stock_price with
      | [] => annual_probe eod quotes exit_eod split_info entry_date stock_price rest
      | optimal_call :: _ =>
        match extract_precise_entry_price_from_bulk (quotes exp_date)
            optimal_call.strike with
        | none => annual_probe eod quotes exit_eod split_info entry_date stock_price rest
        | some entry_price =>
          if entry_price ≤ 0 then
            annual_probe eod quotes exit_eod split_info entry_date stock_price rest
          else
            match get_exit_price_individual
                (exit_eod exp_date (split_adjust_strike split_info optimal_call.strike)) with
            | none => annual_probe eod quotes exit_eod split_info entry_date stock_price rest
            | some exit_price0 =>
              if exit_price0 < 0 then
                annual_probe eod quotes exit_eod split_info entry_date stock_price rest
              else
                some
                  { expiration := exp_date,
                    months_to_exp :=
                      (((ord8 exp_date : ℤ) - (ord8 entry_date : ℤ) : ℤ) : ℚ) / 30.4375,
                    original_strike := optimal_call.strike,
                    exit_strike := split_adjust_strike split_info optimal_call.strike,
                    entry_price := entry_price,
                    exit_price := split_adjust_exit_price split_info exit_price0,
                    pnl_per_contract :=
                      split_adjust_exit_price split_info exit_price0 - entry_price,
                    return_pct := if 0 < entry_price then
                      (split_adjust_exit_price split_info exit_price0 - entry_price) /
                        entry_price * 100
                      else 0,
                    split_info := split_info }

/-- Embedding of `find_optimal_leaps_annual_january`
    (src/src/backtesting_engine/accurate_optimized_leaps.py, lines 239-313). -/
def find_optimal_leaps_annual_january (eod : ℕ → Option (List BulkItem))
    (quotes : ℕ → List BulkItem) (exit_eod : ℕ → ℤ → List (List (Option ℚ)))
    (expirations_response : List ℕ) (symbol : String) (year : ℕ)
    (entry_date exit_date : ℕ) (stock_price : ℚ) : Option AnnualTrade :=
  let january_exps := get_january_expirations expirations_response year entry_date
  if january_exps = [] then none
  else
    let split_info := detect_stock_split symbol entry_date exit_date
    annual_probe eod quotes exit_eod split_info entry_date stock_price january_exps

/-- Validity of one candidate expiration, exactly the conditions under which
    the probe loop does not `continue`: entry EOD data present, at least one
    eligible ITM call, a positive 10:00 entry price for the chosen strike, and
    a non-`None` non-negative exit price at the (split-adjusted) strike. -/
def annual_candidate_valid (eod : ℕ → Option (List BulkItem))
    (quotes : ℕ → List BulkItem) (exit_eod : ℕ → ℤ → List (List (Option ℚ)))
    (split_info : Option SplitInfo) (stock_price : ℚ) (exp_date : ℕ) : Bool :=
  match eod exp_date with
  | none => false
  | some bulk =>
    match filter_itm_calls_from_bulk bulk stock_price with
    | [] => false
    | optimal_call :: _ =>
      match extract_precise_entry_price_from_bulk (quotes exp_date)
          optimal_call.strike with
      | none => false
      | some entry_price =>
        if entry_price ≤ 0 then false
        else
          match get_exit_price_individual
              (exit_eod exp_date (split_adjust_strike split_info optimal_call.strike)) with
          | none => false
          | some exit_price0 => decide (¬ exit_price0 < 0)

end accurate_optimized_leaps

namespace accurate_optimized_leaps

/-- The probe loop selects the first candidate expiration with a fully valid
    dataset: its selected expiration is `find?` of the validity test. -/
theorem annual_probe_find (eod : ℕ → Option (List BulkItem))
    (quotes : ℕ → List BulkItem) (exit_eod : ℕ → ℤ → List (List (Option ℚ)))
    (split_info : Option SplitInfo) (entry_date : ℕ) (stock_price : ℚ)
    (l : List ℕ) :
    (annual_probe eod quotes exit_eod split_info entry_date stock_price l).map
        (fun r => r.expiration) =
      l.find? (annual_candidate_valid eod quotes exit_eod split_info stock_price) := by
  induction l with
  | nil => rfl
  | cons exp rest ih =>
    rw [annual_probe, List.find?_cons]
    cases he : eod exp with
    | none =>
      simp only [annual_candidate_valid, he]
      exact ih
    | some bulk =>
      cases hitm : filter_itm_calls_from_bulk bulk stock_price with
      | nil =>
        simp only [annual_candidate_valid, he, hitm]
        exact ih
      | cons oc calls =>
        cases hep : extract_precise_entry_price_from_bulk (quotes exp) oc.strike with
        | none =>
          simp only [annual_candidate_valid, he, hitm, hep]
          exact ih
        | some ep =>
          by_cases hep0 : ep ≤ 0
          · simp only [annual_candidate_valid, he, hitm, hep, if_pos hep0]
            exact ih
          · cases hxp : get_exit_price_individual
                (exit_eod exp (split_adjust_strike split_info oc.strike)) with
            | none =>
              simp only [annual_candidate_valid, he, hitm, hep, if_neg hep0, hxp]
              exact ih
            | some xp =>
              by_cases hxp0 : xp < 0
              · simp only [annual_candidate_valid, he, hitm, hep, if_neg hep0, hxp,
                  if_pos hxp0, decide_eq_false (not_not_intro hxp0)]
                exact ih
              · simp only [annual_candidate_valid, he, hitm, hep, if_neg hep0, hxp,
                  if_neg hxp0, decide_eq_true hxp0]
                rfl

/-- Whatever the probe loop returns respects the split adjustment: the exit
    strike is the (possibly split-divided) entry strike and the exit price is
    the retrieved raw price times the split ratio. -/
theorem annual_probe_some (eod : ℕ → Option (List BulkItem))
    (quotes : ℕ → List BulkItem) (exit_eod : ℕ → ℤ → List (List (Option ℚ)))
    (split_info : Option SplitInfo) (entry_date : ℕ) (stock_price : ℚ)
    (l : List ℕ) (r : AnnualTrade)
    (h : annual_probe eod quotes exit_eod split_info entry_date stock_price l = some r) :
    r.split_info = split_info ∧
    r.exit_strike = split_adjust_strike split_info r.original_strike ∧
    ∃ raw, get_exit_price_individual (exit_eod r.expiration r.exit_strike) = some raw ∧
      ¬ raw < 0 ∧ r.exit_price = split_adjust_exit_price split_info raw := by
  induction l with
  | nil => exact Option.noConfusion h
  | cons exp rest ih =>
    rw [annual_probe] at h
    split at h
    · exact ih h
    · split at h
      · exact ih h
      · split at h
        · exact ih h
        · rename_i bulk heod oc calls hitm ep hep
          split at h
          · exact ih h
          · split at h
            · exact ih h
            · rename_i hep0 xp hxp
              split at h
              · exact ih h
              · rename_i hxp0
                rw [Option.some.injEq] at h
                subst h
                exact ⟨rfl, rfl, xp, hxp, hxp0, rfl⟩

end accurate_optimized_leaps

/-- C3: for annual-January selection, the candidate list is exactly the listed
    expirations in January of `year + 1` strictly after the entry date, sorted
    strictly ascending (given a duplicate-free listing); the probe selects the
    FIRST candidate whose full dataset is valid; in particular, with three
    candidates of which only the second is valid, the second is selected. -/
theorem claim_C3_thm (eod : ℕ → Option (List accurate_optimized_leaps.BulkItem))
    (quotes : ℕ → List accurate_optimized_leaps.BulkItem)
    (exit_eod : ℕ → ℤ → List (List (Option ℚ)))
    (expirations_response : List ℕ) (symbol : String) (year : ℕ)
    (entry_date exit_date : ℕ) (stock_price : ℚ) :
    (∀ e, e ∈ accurate_optimized_leaps.get_january_expirations expirations_response year
        entry_date ↔
      (e ∈ expirations_response ∧ ∃ d, accurate_optimized_leaps.parse_ymd e = some d ∧
        d.year = year + 1 ∧ d.month = 1 ∧ entry_date < e)) ∧
    (expirations_response.Nodup →
      List.Sorted (· < ·) (accurate_optimized_leaps.get_january_expirations
        expirations_response year entry_date)) ∧
    ((accurate_optimized_leaps.find_optimal_leaps_annual_january eod quotes exit_eod
        expirations_response symbol year entry_date exit_date stock_price).map
          (fun r => r.expiration) =
      (accurate_optimized_leaps.get_january_expirations expirations_response year
          entry_date).find?
        (accurate_optimized_leaps.annual_candidate_valid eod quotes exit_eod
          (accurate_optimized_leaps.detect_stock_split symbol entry_date exit_date)
          stock_price)) ∧
    (∀ e1 e2 e3, accurate_optimized_leaps.get_january_expirations expirations_response
        year entry_date = [e1, e2, e3] →
      accurate_optimized_leaps.annual_candidate_valid eod quotes exit_eod
        (accurate_optimized_leaps.detect_stock_split symbol entry_date exit_date)
        stock_price e1 = false →
      accurate_optimized_leaps.annual_candidate_valid eod quotes exit_eod
        (accurate_optimized_leaps.detect_stock_split symbol entry_date exit_date)
        stock_price e2 = true →
      accurate_optimized_leaps.annual_candidate_valid eod quotes exit_eod
        (accurate_optimized_leaps.detect_stock_split symbol entry_date exit_date)
        stock_price e3 = false →
      (accurate_optimized_leaps.find_optimal_leaps_annual_january eod quotes exit_eod
          expirations_response symbol year entry_date exit_date stock_price).map
        (fun r => r.expiration) = some e2) := by
  have hmap : (accurate_optimized_leaps.find_optimal_leaps_annual_january eod quotes exit_eod
      expirations_response symbol year entry_date exit_date stock_price).map
        (fun r => r.expiration) =
      (accurate_optimized_leaps.get_january_expirations expirations_response year
          entry_date).find?
        (accurate_optimized_leaps.annual_candidate_valid eod quotes exit_eod
          (accurate_optimized_leaps.detect_stock_split symbol entry_date exit_date)
          stock_price) := by
    unfold accurate_optimized_leaps.find_optimal_leaps_annual_january
    dsimp only
    by_cases hjan : accurate_optimized_leaps.get_january_expirations expirations_response
        year entry_date = []
    · rw [if_pos hjan, hjan]
      rfl
    · rw [if_neg hjan]
      exact accurate_optimized_leaps.annual_probe_find _ _ _ _ _ _ _
  refine ⟨?_, ?_, hmap, ?_⟩
  · intro e
    unfold accurate_optimized_leaps.get_january_expirations
    dsimp only
    rw [List.mem_insertionSort, List.mem_filter]
    constructor
    · rintro ⟨hmem, hp⟩
      refine ⟨hmem, ?_⟩
      cases hd : accurate_optimized_leaps.parse_ymd e with
      | none => rw [hd] at hp; exact Bool.noConfusion hp
      | some d =>
        rw [hd] at hp
        exact ⟨d, rfl, of_decide_eq_true hp⟩
    · rintro ⟨hmem, d, hd, hy, hm, he⟩
      refine ⟨hmem, ?_⟩
      rw [hd]
      exact decide_eq_true ⟨hy, hm, he⟩
  · intro hnd
    have hsorted : List.Sorted (· ≤ ·) (accurate_optimized_leaps.get_january_expirations
        expirations_response year entry_date) := by
      unfold accurate_optimized_leaps.get_january_expirations
      exact List.sorted_insertionSort _ _
    have hnodup : (accurate_optimized_leaps.get_january_expirations expirations_response
        year entry_date).Nodup := by
      unfold accurate_optimized_leaps.get_january_expirations
      dsimp only
      exact (List.perm_insertionSort _ _).nodup_iff.mpr (hnd.filter _)
    exact hsorted.lt_of_le hnodup
  · intro e1 e2 e3 hjan hv1 hv2 hv3
    rw [hmap, hjan]
    rw [List.find?_cons_of_neg _ (by rw [hv1]; exact Bool.false_ne_true)]
    exact List.find?_cons_of_pos _ hv2

namespace accurate_optimized_leaps

/-- Witness fixture: a bulk EOD item holding one call at strike 165.00 with a
    positive close. -/
def fixture_item : BulkItem :=
  ⟨some ⟨165000, "C"⟩,
    [[none, none, none, none, none, some 12, none, none, none, none, some 0,
      none, none, none, some 0, none, none]]⟩

/-- Witness fixture: the eligible ITM call the filter derives from
    `fixture_item` against spot 170. -/
def fixture_call : ValidCall :=
  ⟨165000, |(165000 : ℚ) - 170 * 1000|, 12, 0, 0, "excellent"⟩

/-- Witness fixture: an at-time quote row for the same strike with ask 10. -/
def fixture_qitem : BulkItem :=
  ⟨some ⟨165000, "C"⟩, [[none, none, none, some 1, none, none, none, some 10]]⟩

/-- Witness fixture: a 17-field exit EOD record with close 12. -/
def fixture_exit_rec : List (Option ℚ) :=
  [none, none, none, none, none, some 12, none, none, none, none, some 0,
    none, none, none, none, none, none]

/-- Witness fixture: entry EOD data exists only for expiration 2026-01-23. -/
def fixture_eod : ℕ → Option (List BulkItem) :=
  fun e => if e = 20260123 then some [fixture_item] else none

/-- Witness fixture: at-time quotes exist only for expiration 2026-01-23. -/
def fixture_quotes : ℕ → List BulkItem :=
  fun e => if e = 20260123 then [fixture_qitem] else []

/-- Witness fixture: an exit record exists only for 2026-01-23 at strike
    165.00. -/
def fixture_exit_eod : ℕ → ℤ → List (List (Option ℚ)) :=
  fun e s => if e = 20260123 ∧ s = 165000 then [fixture_exit_rec] else []

/-- Witness fixture: the raw expiration listing (two non-January-2026 entries
    are filtered out, the rest sorts to three candidates). -/
def fixture_resp : List ℕ := [20260130, 20260116, 20260123, 20250117, 20260215]

end accurate_optimized_leaps

/-- C3 witness: of the three January-2026 candidates 2026-01-16, 2026-01-23 and
    2026-01-30, only the middle one has a complete dataset, and the selection
    returns it. -/
theorem claim_C3_witness :
    (accurate_optimized_leaps.find_optimal_leaps_annual_january
        accurate_optimized_leaps.fixture_eod accurate_optimized_leaps.fixture_quotes
        accurate_optimized_leaps.fixture_exit_eod accurate_optimized_leaps.fixture_resp
        "GOOG" 2025 20250102 20251231 170).map (fun r => r.expiration) =
      some 20260123 := by
  have hjan : accurate_optimized_leaps.get_january_expirations
      accurate_optimized_leaps.fixture_resp 2025 20250102 =
      [20260116, 20260123, 20260130] := by decide
  have hv1 : accurate_optimized_leaps.annual_candidate_valid
      accurate_optimized_leaps.fixture_eod accurate_optimized_leaps.fixture_quotes
      accurate_optimized_leaps.fixture_exit_eod
      (accurate_optimized_leaps.detect_stock_split "GOOG" 20250102 20251231)
      170 20260116 = false := by decide
  have hv3 : accurate_optimized_leaps.annual_candidate_valid
      accurate_optimized_leaps.fixture_eod accurate_optimized_leaps.fixture_quotes
      accurate_optimized_leaps.fixture_exit_eod
      (accurate_optimized_leaps.detect_stock_split "GOOG" 20250102 20251231)
      170 20260130 = false := by decide
  have hsplit : accurate_optimized_leaps.detect_stock_split "GOOG" 20250102 20251231 =
      none := by decide
  have hfm : accurate_optimized_leaps.itm_call_of ((170 : ℚ) * 1000)
      accurate_optimized_leaps.fixture_item = some accurate_optimized_leaps.fixture_call := by
    simp only [accurate_optimized_leaps.itm_call_of, accurate_optimized_leaps.fixture_item,
      accurate_optimized_leaps.fixture_call]
    norm_num [orZero, List.getD_cons_zero, List.getD_cons_succ]
  have hitm : accurate_optimized_leaps.filter_itm_calls_from_bulk
      [accurate_optimized_leaps.fixture_item] 170 =
      [accurate_optimized_leaps.fixture_call] := by
    unfold accurate_optimized_leaps.filter_itm_calls_from_bulk
    dsimp only
    rw [show List.filterMap (accurate_optimized_leaps.itm_call_of ((170 : ℚ) * 1000))
        [accurate_optimized_leaps.fixture_item] =
        [accurate_optimized_leaps.fixture_call] from by
      simp only [List.filterMap_cons, List.filterMap_nil, hfm]]
    rfl
  have hext : accurate_optimized_leaps.extract_precise_entry_price_from_bulk
      (accurate_optimized_leaps.fixture_quotes 20260123)
      accurate_optimized_leaps.fixture_call.strike = some 10 := by
    rw [show accurate_optimized_leaps.fixture_quotes 20260123 =
      [accurate_optimized_leaps.fixture_qitem] from rfl]
    simp only [accurate_optimized_leaps.extract_precise_entry_price_from_bulk,
      accurate_optimized_leaps.fixture_qitem, accurate_optimized_leaps.fixture_call]
    rw [if_pos (by refine ⟨by decide, by decide, by decide⟩)]
    norm_num [orZero, List.getD_cons_zero, List.getD_cons_succ]
  have hex : accurate_optimized_leaps.get_exit_price_individual
      (accurate_optimized_leaps.fixture_exit_eod 20260123
        (accurate_optimized_leaps.split_adjust_strike none
          accurate_optimized_leaps.fixture_call.strike)) = some 12 := by
    rw [show accurate_optimized_leaps.fixture_exit_eod 20260123
        (accurate_optimized_leaps.split_adjust_strike none
          accurate_optimized_leaps.fixture_call.strike) =
      [accurate_optimized_leaps.fixture_exit_rec] from rfl]
    simp only [accurate_optimized_leaps.get_exit_price_individual,
      accurate_optimized_leaps.fixture_exit_rec]
    norm_num [orZero, List.getD_cons_zero, List.getD_cons_succ]
  have hv2 : accurate_optimized_leaps.annual_candidate_valid
      accurate_optimized_leaps.fixture_eod accurate_optimized_leaps.fixture_quotes
      accurate_optimized_leaps.fixture_exit_eod
      (accurate_optimized_leaps.detect_stock_split "GOOG" 20250102 20251231)
      170 20260123 = true := by
    rw [hsplit]
    simp only [accurate_optimized_leaps.annual_candidate_valid,
      show accurate_optimized_leaps.fixture_eod 20260123 =
        some [accurate_optimized_leaps.fixture_item] from rfl,
      hitm, hext, hex]
    rw [if_neg (by norm_num : ¬ (10 : ℚ) ≤ 0)]
    exact decide_eq_true (by norm_num)
  exact (claim_C3_thm accurate_optimized_leaps.fixture_eod
    accurate_optimized_leaps.fixture_quotes accurate_optimized_leaps.fixture_exit_eod
    accurate_optimized_leaps.fixture_resp "GOOG" 2025 20250102 20251231 170).2.2.2
    20260116 20260123 20260130 hjan hv1 hv2 hv3

namespace accurate_optimized_leaps

/-- The dictionary built for a successful quarterly rolling trade (Greeks
    omitted, as for `AnnualTrade`). -/
structure QuarterlyTrade where
  entry_date : ℕ
  exit_date : ℕ
  expiration : ℕ
  months_to_exp : ℚ
  original_strike : ℤ
  exit_strike : ℤ
  strike : ℤ
  entry_price : ℚ
  exit_price : ℚ
  pnl_per_contract : ℚ
  return_pct : ℚ
  hold_days : ℤ
  split_info : Option SplitInfo
  target_15_months : ℕ
  deviation_days : ℤ
  deriving DecidableEq

/-- Embedding of `execute_single_quarterly_trade`
    (src/src/backtesting_engine/accurate_optimized_leaps.py, lines 343-425).
    `avail` is the parsed expiration listing for the entry date; the remaining
    oracles are as in `annual_probe`.  An unparseable entry date (a runtime
    error in the source) is modelled as no result. -/
def execute_single_quarterly_trade (avail : List DateD)
    (eod : ℕ → Option (List BulkItem)) (quotes : ℕ → List BulkItem)
    (exit_eod : ℕ → ℤ → List (List (Option ℚ))) (symbol : String)
    (entry_date exit_date : ℕ) (stock_price : ℚ) (fixed_strike : Option ℤ) :
    Option QuarterlyTrade :=
  match parse_ymd entry_date with
  | none => none
  | some entry_dt =>
    if avail = [] then none
    else
      match select_leaps_expiration avail entry_dt with
      | none => none
      | some closest_expiration =>
        let exp_date := format_ymd closest_expiration
        let split_info := detect_stock_split symbol entry_date exit_date
        match eod exp_date with
        | none => none
        | some bulk =>
          match (match fixed_strike with
                 | some fs => (filter_itm_calls_from_bulk bulk stock_price).find?
                     (fun v : ValidCall => decide (v.strike = fs))
                 | none => (filter_itm_calls_from_bulk bulk stock_price).head?) with
          | none => none
          | some optimal_call =>
            match extract_precise_entry_price_from_bulk (quotes exp_date)
                optimal_call.strike with
            | none => none
            | some entry_price =>
              if entry_price ≤ 0 then none
              else
                match get_exit_price_individual
                    (exit_eod exp_date
                      (split_adjust_strike split_info optimal_call.strike)) with
                | none => none
                | some exit_price0 =>
                  if exit_price0 < 0 then none
                  else
                    some
                      { entry_date := entry_date, exit_date := exit_date,
                        expiration := exp_date,
                        months_to_exp :=
                          (((toordinal closest_expiration : ℤ) -
                            (toordinal entry_dt : ℤ) : ℤ) : ℚ) / 30.4375,
                        original_strike := optimal_call.strike,
                        exit_strike := split_adjust_strike split_info optimal_call.strike,
                        strike := optimal_call.strike,
                        entry_price := entry_price,
                        exit_price := split_adjust_exit_price split_info exit_price0,
                        pnl_per_contract :=
                          split_adjust_exit_price split_info exit_price0 - entry_price,
                        return_pct := if 0 < entry_price then
                          (split_adjust_exit_price split_info exit_price0 - entry_price) /
                            entry_price * 100
                          else 0,
                        hold_days := (ord8 exit_date : ℤ) - (ord8 entry_date : ℤ),
                        split_info := split_info,
                        target_15_months := format_ymd (add_months entry_dt 15),
                        deviation_days := |(toordinal closest_expiration : ℤ) -
                          (toordinal (add_months entry_dt 15) : ℤ)| }

/-- Whatever a quarterly trade returns respects the split adjustment, like the
    annual probe. -/
theorem execute_single_quarterly_trade_some (avail : List DateD)
    (eod : ℕ → Option (List BulkItem)) (quotes : ℕ → List BulkItem)
    (exit_eod : ℕ → ℤ → List (List (Option ℚ))) (symbol : String)
    (entry_date exit_date : ℕ) (stock_price : ℚ) (fixed_strike : Option ℤ)
    (r : QuarterlyTrade)
    (h : execute_single_quarterly_trade avail eod quotes exit_eod symbol entry_date
      exit_date stock_price fixed_strike = some r) :
    r.split_info = detect_stock_split symbol entry_date exit_date ∧
    r.exit_strike = split_adjust_strike (detect_stock_split symbol entry_date exit_date)
      r.original_strike ∧
    ∃ raw, get_exit_price_individual (exit_eod r.expiration r.exit_strike) = some raw ∧
      ¬ raw < 0 ∧
      r.exit_price = split_adjust_exit_price
        (detect_stock_split symbol entry_date exit_date) raw := by
  unfold execute_single_quarterly_trade at h
  split at h
  · exact Option.noConfusion h
  · split at h
    · exact Option.noConfusion h
    · split at h
      · exact Option.noConfusion h
      · rename_i entry_dt hparse hne closest hsel
        dsimp only at h
        split at h
        · exact Option.noConfusion h
        · split at h
          · exact Option.noConfusion h
          · split at h
            · exact Option.noConfusion h
            · rename_i bulk heod oc hoc ep hep
              split at h
              · exact Option.noConfusion h
              · split at h
                · exact Option.noConfusion h
                · rename_i hep0 xp hxp
                  split at h
                  · exact Option.noConfusion h
                  · rename_i hxp0
                    rw [Option.some.injEq] at h
                    subst h
                    exact ⟨rfl, rfl, xp, hxp, hxp0, rfl⟩

end accurate_optimized_leaps

namespace accurate_optimized_leaps

/-- The annual selection inherits the probe's split-adjustment guarantees. -/
theorem find_optimal_leaps_annual_january_some (eod : ℕ → Option (List BulkItem))
    (quotes : ℕ → List BulkItem) (exit_eod : ℕ → ℤ → List (List (Option ℚ)))
    (expirations_response : List ℕ) (symbol : String) (year : ℕ)
    (entry_date exit_date : ℕ) (stock_price : ℚ) (r : AnnualTrade)
    (h : find_optimal_leaps_annual_january eod quotes exit_eod expirations_response
      symbol year entry_date exit_date stock_price = some r) :
    r.split_info = detect_stock_split symbol entry_date exit_date ∧
    r.exit_strike = split_adjust_strike (detect_stock_split symbol entry_date exit_date)
      r.original_strike ∧
    ∃ raw, get_exit_price_individual (exit_eod r.expiration r.exit_strike) = some raw ∧
      ¬ raw < 0 ∧
      r.exit_price = split_adjust_exit_price
        (detect_stock_split symbol entry_date exit_date) raw := by
  unfold find_optimal_leaps_annual_january at h
  dsimp only at h
  split at h
  · exact Option.noConfusion h
  · exact annual_probe_some _ _ _ _ _ _ _ _ h

end accurate_optimized_leaps

/-- C4: whenever a trade's holding window spans a known split event (for the
    hard-coded table: GOOG's 20:1 split of 2022-07-15), both the annual and
    the quarterly trade look the exit price up at the entry strike
    integer-divided by the split ratio and multiply the retrieved raw exit
    price by the ratio; in particular entry strike 150000 gives exit-lookup
    strike 7500 and a times-20 exit price. -/
theorem claim_C4_thm (eod : ℕ → Option (List accurate_optimized_leaps.BulkItem))
    (quotes : ℕ → List accurate_optimized_leaps.BulkItem)
    (exit_eod : ℕ → ℤ → List (List (Option ℚ)))
    (expirations_response : List ℕ) (avail : List accurate_optimized_leaps.DateD)
    (symbol : String) (year : ℕ) (entry_date exit_date : ℕ) (stock_price : ℚ)
    (fixed_strike : Option ℤ) (si : accurate_optimized_leaps.SplitInfo)
    (hsi : accurate_optimized_leaps.detect_stock_split symbol entry_date exit_date =
      some si) :
    si = ⟨20220715, 20⟩ ∧
    (∀ r, accurate_optimized_leaps.find_optimal_leaps_annual_january eod quotes exit_eod
        expirations_response symbol year entry_date exit_date stock_price = some r →
      r.split_info = some si ∧
      r.exit_strike = Int.fdiv r.original_strike si.split_ratio ∧
      ∃ raw, accurate_optimized_leaps.get_exit_price_individual
          (exit_eod r.expiration r.exit_strike) = some raw ∧
        r.exit_price = raw * (si.split_ratio : ℚ)) ∧
    (∀ r, accurate_optimized_leaps.execute_single_quarterly_trade avail eod quotes
        exit_eod symbol entry_date exit_date stock_price fixed_strike = some r →
      r.split_info = some si ∧
      r.exit_strike = Int.fdiv r.original_strike si.split_ratio ∧
      ∃ raw, accurate_optimized_leaps.get_exit_price_individual
          (exit_eod r.expiration r.exit_strike) = some raw ∧
        r.exit_price = raw * (si.split_ratio : ℚ)) ∧
    (∀ r, accurate_optimized_leaps.find_optimal_leaps_annual_january eod quotes exit_eod
        expirations_response symbol year entry_date exit_date stock_price = some r →
      r.original_strike = 150000 →
      r.exit_strike = 7500 ∧
      ∃ raw, accurate_optimized_leaps.get_exit_price_individual
          (exit_eod r.expiration r.exit_strike) = some raw ∧
        r.exit_price = raw * 20) := by
  have hsi20 : si = ⟨20220715, 20⟩ := by
    unfold accurate_optimized_leaps.detect_stock_split at hsi
    split_ifs at hsi
    exact (Option.some.inj hsi).symm
  have hann : ∀ r, accurate_optimized_leaps.find_optimal_leaps_annual_january eod quotes
      exit_eod expirations_response symbol year entry_date exit_date stock_price =
        some r →
      r.split_info = some si ∧
      r.exit_strike = Int.fdiv r.original_strike si.split_ratio ∧
      ∃ raw, accurate_optimized_leaps.get_exit_price_individual
          (exit_eod r.expiration r.exit_strike) = some raw ∧
        r.exit_price = raw * (si.split_ratio : ℚ) := by
    intro r h
    obtain ⟨hsp, hes, raw, hraw, hneg, hep⟩ :=
      accurate_optimized_leaps.find_optimal_leaps_annual_january_some eod quotes exit_eod
        expirations_response symbol year entry_date exit_date stock_price r h
    rw [hsi] at hsp hes hep
    simp only [accurate_optimized_leaps.split_adjust_strike] at hes
    simp only [accurate_optimized_leaps.split_adjust_exit_price] at hep
    exact ⟨hsp, hes, raw, hraw, hep⟩
  refine ⟨hsi20, hann, ?_, ?_⟩
  · intro r h
    obtain ⟨hsp, hes, raw, hraw, hneg, hep⟩ :=
      accurate_optimized_leaps.execute_single_quarterly_trade_some avail eod quotes
        exit_eod symbol entry_date exit_date stock_price fixed_strike r h
    rw [hsi] at hsp hes hep
    simp only [accurate_optimized_leaps.split_adjust_strike] at hes
    simp only [accurate_optimized_leaps.split_adjust_exit_price] at hep
    exact ⟨hsp, hes, raw, hraw, hep⟩
  · intro r h h150
    obtain ⟨hsp, hes, raw, hraw, hep⟩ := hann r h
    rw [h150, hsi20] at hes
    rw [hsi20] at hep
    refine ⟨by rw [hes]; decide, raw, hraw, ?_⟩
    rw [hep]
    norm_num

namespace accurate_optimized_leaps

/-- Witness fixture: a bulk EOD item holding one call at strike 150.00. -/
def fixture_item2 : BulkItem :=
  ⟨some ⟨150000, "C"⟩,
    [[none, none, none, none, none, some 12, none, none, none, none, some 0,
      none, none, none, some 0, none, none]]⟩

/-- Witness fixture: the ITM call derived from `fixture_item2` at spot 170. -/
def fixture_call2 : ValidCall :=
  ⟨150000, |(150000 : ℚ) - 170 * 1000|, 12, 0, 0, "excellent"⟩

/-- Witness fixture: an at-time quote for strike 150.00 with ask 10. -/
def fixture_qitem2 : BulkItem :=
  ⟨some ⟨150000, "C"⟩, [[none, none, none, some 1, none, none, none, some 10]]⟩

/-- Witness fixture: entry EOD data exists only for expiration 2023-01-20. -/
def fixture_eod2 : ℕ → Option (List BulkItem) :=
  fun e => if e = 20230120 then some [fixture_item2] else none

/-- Witness fixture: at-time quotes for expiration 2023-01-20. -/
def fixture_quotes2 : ℕ → List BulkItem :=
  fun e => if e = 20230120 then [fixture_qitem2] else []

/-- Witness fixture: an exit record exists only at the split-adjusted strike
    7500 (i.e. 150000 // 20). -/
def fixture_exit_eod2 : ℕ → ℤ → List (List (Option ℚ)) :=
  fun e s => if e = 20230120 ∧ s = 7500 then [fixture_exit_rec] else []

/-- Witness fixture: a single January-2023 expiration. -/
def fixture_resp2 : List ℕ := [20230120]

/-- Witness fixture: the trade the annual selection builds for the
    split-spanning 2022 window. -/
def fixture_trade2 : AnnualTrade :=
  { expiration := 20230120,
    months_to_exp := (((ord8 20230120 : ℤ) - (ord8 20220103 : ℤ) : ℤ) : ℚ) / 30.4375,
    original_strike := 150000,
    exit_strike := split_adjust_strike (some ⟨20220715, 20⟩) 150000,
    entry_price := 10,
    exit_price := split_adjust_exit_price (some ⟨20220715, 20⟩) 12,
    pnl_per_contract := split_adjust_exit_price (some ⟨20220715, 20⟩) 12 - 10,
    return_pct := if (0 : ℚ) < 10 then
      (split_adjust_exit_price (some ⟨20220715, 20⟩) 12 - 10) / 10 * 100 else 0,
    split_info := some ⟨20220715, 20⟩ }

/-- Witness evaluation: the ITM filter on `fixture_item2` at spot 170. -/
theorem fixture_itm2_eval :
    filter_itm_calls_from_bulk [fixture_item2] 170 = [fixture_call2] := by
  have hfm : itm_call_of ((170 : ℚ) * 1000) fixture_item2 = some fixture_call2 := by
    simp only [itm_call_of, fixture_item2, fixture_call2]
    norm_num [orZero, List.getD_cons_zero, List.getD_cons_succ]
  unfold filter_itm_calls_from_bulk
  dsimp only
  rw [show List.filterMap (itm_call_of ((170 : ℚ) * 1000)) [fixture_item2] =
      [fixture_call2] from by simp only [List.filterMap_cons, List.filterMap_nil, hfm]]
  rfl

/-- Witness evaluation: the 10:00 entry price extracted from
    `fixture_qitem2`. -/
theorem fixture_extract2_eval :
    extract_precise_entry_price_from_bulk [fixture_qitem2] fixture_call2.strike =
      some 10 := by
  simp only [extract_precise_entry_price_from_bulk, fixture_qitem2, fixture_call2]
  rw [if_pos (by refine ⟨by decide, by decide, by decide⟩)]
  norm_num [orZero, List.getD_cons_zero, List.getD_cons_succ]

/-- Witness evaluation: the exit record gives close 12. -/
theorem fixture_exit2_eval :
    get_exit_price_individual [fixture_exit_rec] = some 12 := by
  simp only [get_exit_price_individual, fixture_exit_rec]
  norm_num [orZero, List.getD_cons_zero, List.getD_cons_succ]

end accurate_optimized_leaps

/-- C4 witness: in the 2022 GOOG window spanning the 20:1 split, the selected
    trade with entry strike 150000 looks its exit price up at strike 7500 and
    reports 20 times the raw exit price. -/
theorem claim_C4_witness :
    accurate_optimized_leaps.fixture_trade2.exit_strike = 7500 ∧
    ∃ raw, accurate_optimized_leaps.get_exit_price_individual
        (accurate_optimized_leaps.fixture_exit_eod2
          accurate_optimized_leaps.fixture_trade2.expiration
          accurate_optimized_leaps.fixture_trade2.exit_strike) = some raw ∧
      accurate_optimized_leaps.fixture_trade2.exit_price = raw * 20 := by
  have hjan2 : accurate_optimized_leaps.get_january_expirations
      accurate_optimized_leaps.fixture_resp2 2022 20220103 = [20230120] := by decide
  have hsi2 : accurate_optimized_leaps.detect_stock_split "GOOG" 20220103 20221230 =
      some ⟨20220715, 20⟩ := by decide
  have hopt : accurate_optimized_leaps.find_optimal_leaps_annual_january
      accurate_optimized_leaps.fixture_eod2 accurate_optimized_leaps.fixture_quotes2
      accurate_optimized_leaps.fixture_exit_eod2 accurate_optimized_leaps.fixture_resp2
      "GOOG" 2022 20220103 20221230 170 =
      some accurate_optimized_leaps.fixture_trade2 := by
    unfold accurate_optimized_leaps.find_optimal_leaps_annual_january
    dsimp only
    rw [hjan2, hsi2]
    rw [if_neg (by simp)]
    rw [accurate_optimized_leaps.annual_probe]
    simp only [show accurate_optimized_leaps.fixture_eod2 20230120 =
        some [accurate_optimized_leaps.fixture_item2] from rfl,
      accurate_optimized_leaps.fixture_itm2_eval,
      show accurate_optimized_leaps.fixture_quotes2 20230120 =
        [accurate_optimized_leaps.fixture_qitem2] from rfl,
      accurate_optimized_leaps.fixture_extract2_eval,
      show accurate_optimized_leaps.fixture_exit_eod2 20230120
          (accurate_optimized_leaps.split_adjust_strike (some ⟨20220715, 20⟩)
            accurate_optimized_leaps.fixture_call2.strike) =
        [accurate_optimized_leaps.fixture_exit_rec] from rfl,
      accurate_optimized_leaps.fixture_exit2_eval]
    rw [if_neg (by norm_num : ¬ (10 : ℚ) ≤ 0), if_neg (by norm_num : ¬ (12 : ℚ) < 0)]
    rfl
  exact (claim_C4_thm accurate_optimized_leaps.fixture_eod2
    accurate_optimized_leaps.fixture_quotes2 accurate_optimized_leaps.fixture_exit_eod2
    accurate_optimized_leaps.fixture_resp2 [] "GOOG" 2022 20220103 20221230 170 none
    ⟨20220715, 20⟩ hsi2).2.2.2 accurate_optimized_leaps.fixture_trade2 hopt rfl

namespace capital_management

/-- Branch evaluation: the insufficient-capital branch of `calculate_position_size`. -/
theorem calculate_position_size_insufficient (a p c : ℚ) (cap : ℤ)
    (h1 : ¬(a ≤ 0 ∨ p ≤ 0)) (h2 : a < p * 100 + c) :
    calculate_position_size a p c cap =
      { error := some .insufficientCapital, num_contracts := 0, total_cost := some 0,
        total_commission := some 0, leftover_cash := some a,
        capital_utilization := some 0 } := by
  unfold calculate_position_size
  simp only [if_neg h1, if_pos h2]

/-- Branch evaluation: the zero-contracts branch of `calculate_position_size`. -/
theorem calculate_position_size_zero (a p c : ℚ) (cap : ℤ)
    (h1 : ¬(a ≤ 0 ∨ p ≤ 0)) (h2 : ¬ a < p * 100 + c)
    (h3 : min ⌊a / (p * 100 + c)⌋ cap = 0) :
    calculate_position_size a p c cap =
      { error := some .zeroContracts, num_contracts := 0, total_cost := some 0,
        total_commission := some 0, leftover_cash := some a,
        capital_utilization := some 0 } := by
  unfold calculate_position_size
  simp [if_neg h1, if_neg h2, h3]

/-- Branch evaluation: the success branch of `calculate_position_size`. -/
theorem calculate_position_size_success (a p c : ℚ) (cap n : ℤ)
    (h1 : ¬(a ≤ 0 ∨ p ≤ 0)) (h2 : ¬ a < p * 100 + c)
    (hn : min ⌊a / (p * 100 + c)⌋ cap = n) (hn0 : ¬ n = 0) :
    calculate_position_size a p c cap =
      { error := none, num_contracts := n, total_cost := some ((n : ℚ) * p * 100),
        total_commission := some ((n : ℚ) * c),
        leftover_cash := some (a - ((n : ℚ) * p * 100 + (n : ℚ) * c)),
        capital_utilization := some (((n : ℚ) * p * 100 + (n : ℚ) * c) / a * 100) } := by
  unfold calculate_position_size
  simp only [if_neg h1, if_neg h2, hn, if_neg hn0]

end capital_management

namespace run_claude_backtest

/-- Branch evaluation: the non-error branch of the driver-local
    `calculate_position_size`. -/
theorem claude_position_size_success (a p c : ℚ) (cap n : ℤ)
    (hp : ¬ p ≤ 0)
    (hn : min (py_int (a * TARGET_CAPITAL_UTILIZATION / (p + c))) cap = n) :
    calculate_position_size a p c cap =
      { num_contracts := n, total_entry_cost := (n : ℚ) * p,
        total_commission := (n : ℚ) * c, total_cost := (n : ℚ) * p + (n : ℚ) * c,
        leftover_cash := a - ((n : ℚ) * p + (n : ℚ) * c),
        capital_utilization := ((n : ℚ) * p + (n : ℚ) * c) / a * 100,
        error := none } := by
  unfold calculate_position_size
  simp only [if_neg hp, hn]

end run_claude_backtest

/-- C9: with exact rational arithmetic, the shared capital-management module
    reproduces the spec's worked examples:
    `calculate_position_size(100000, 50.0, 0.35)` buys 19 contracts and leaves
    4993.35 of cash, and `calculate_exit_proceeds(19, 60.0, 0.35)` yields gross
    proceeds 114000 and net proceeds 113993.35. -/
theorem claim_C9_thm :
    (capital_management.calculate_position_size 100000 50 0.35 999999).error = none ∧
    (capital_management.calculate_position_size 100000 50 0.35 999999).num_contracts = 19 ∧
    (capital_management.calculate_position_size 100000 50 0.35 999999).leftover_cash =
      some 4993.35 ∧
    (capital_management.calculate_exit_proceeds 19 60 0.35).gross_proceeds = some 114000 ∧
    (capital_management.calculate_exit_proceeds 19 60 0.35).net_proceeds = some 113993.35 := by
  have hfl : ⌊(100000 : ℚ) / (50 * 100 + 0.35)⌋ = 19 := by
    rw [Int.floor_eq_iff] <;> norm_num
  have hmin : min ⌊(100000 : ℚ) / (50 * 100 + 0.35)⌋ (999999 : ℤ) = 19 := by
    rw [hfl]; exact min_eq_left (by norm_num)
  have hpos := capital_management.calculate_position_size_success 100000 50 0.35 999999 19
    (by norm_num) (by norm_num) hmin (by norm_num)
  have hexit : capital_management.calculate_exit_proceeds 19 60 0.35 =
      { error := none, gross_proceeds := some ((19 : ℚ) * 60 * 100),
        exit_commission := some ((19 : ℚ) * 0.35),
        net_proceeds := some ((19 : ℚ) * 60 * 100 - (19 : ℚ) * 0.35) } := by
    unfold capital_management.calculate_exit_proceeds
    norm_num
  rw [hpos, hexit]
  norm_num

/-- C10: the shared sizing function never over-spends: for positive capital and
    price, non-negative commission and cap, a successful outcome charges at most
    the available capital and leaves non-negative cash, while every error
    outcome buys zero contracts and leaves the capital untouched. -/
theorem claim_C10_thm (a p c : ℚ) (cap : ℤ)
    (ha : 0 < a) (hp : 0 < p) (hc : 0 ≤ c) (hcap : 0 ≤ cap) :
    ((capital_management.calculate_position_size a p c cap).error = none →
      ((capital_management.calculate_position_size a p c cap).num_contracts : ℚ) * p * 100 +
        ((capital_management.calculate_position_size a p c cap).num_contracts : ℚ) * c ≤ a ∧
      ∃ l : ℚ, (capital_management.calculate_position_size a p c cap).leftover_cash = some l ∧
        0 ≤ l) ∧
    ((capital_management.calculate_position_size a p c cap).error ≠ none →
      (capital_management.calculate_position_size a p c cap).num_contracts = 0 ∧
      (capital_management.calculate_position_size a p c cap).leftover_cash = some a) := by
  have h1 : ¬(a ≤ 0 ∨ p ≤ 0) := by push_neg; exact ⟨ha, hp⟩
  have hcost : (0 : ℚ) < p * 100 + c := by nlinarith
  by_cases h2 : a < p * 100 + c
  · rw [capital_management.calculate_position_size_insufficient a p c cap h1 h2]
    exact ⟨fun h => absurd h (by simp), fun _ => ⟨rfl, rfl⟩⟩
  · by_cases h3 : min ⌊a / (p * 100 + c)⌋ cap = 0
    · rw [capital_management.calculate_position_size_zero a p c cap h1 h2 h3]
      exact ⟨fun h => absurd h (by simp), fun _ => ⟨rfl, rfl⟩⟩
    · rw [capital_management.calculate_position_size_success a p c cap
        (min ⌊a / (p * 100 + c)⌋ cap) h1 h2 rfl h3]
      refine ⟨fun _ => ?_, fun h => absurd rfl h⟩
      have h4 : min ⌊a / (p * 100 + c)⌋ cap ≤ ⌊a / (p * 100 + c)⌋ := min_le_left _ _
      have h5 : ((min ⌊a / (p * 100 + c)⌋ cap : ℤ) : ℚ) ≤ a / (p * 100 + c) := by
        calc ((min ⌊a / (p * 100 + c)⌋ cap : ℤ) : ℚ) ≤ (⌊a / (p * 100 + c)⌋ : ℚ) := by
              exact_mod_cast h4
          _ ≤ a / (p * 100 + c) := Int.floor_le _
      have key : ((min ⌊a / (p * 100 + c)⌋ cap : ℤ) : ℚ) * (p * 100 + c) ≤ a := by
        have h6 := mul_le_mul_of_nonneg_right h5 (le_of_lt hcost)
        rwa [div_mul_cancel₀ _ (ne_of_gt hcost)] at h6
      constructor
      · nlinarith [key]
      · exact ⟨_, rfl, by nlinarith [key]⟩

/-- C10 witness at capital 100000, price 50, commission 0.35, cap 999999. -/
theorem claim_C10_witness :
    ((capital_management.calculate_position_size 100000 50 0.35 999999).error = none →
      ((capital_management.calculate_position_size 100000 50 0.35 999999).num_contracts : ℚ)
          * 50 * 100 +
        ((capital_management.calculate_position_size 100000 50 0.35 999999).num_contracts : ℚ)
          * 0.35 ≤ 100000 ∧
      ∃ l : ℚ,
        (capital_management.calculate_position_size 100000 50 0.35 999999).leftover_cash =
          some l ∧ 0 ≤ l) ∧
    ((capital_management.calculate_position_size 100000 50 0.35 999999).error ≠ none →
      (capital_management.calculate_position_size 100000 50 0.35 999999).num_contracts = 0 ∧
      (capital_management.calculate_position_size 100000 50 0.35 999999).leftover_cash =
        some 100000) :=
  claim_C10_thm 100000 50 0.35 999999 (by norm_num) (by norm_num) (by norm_num) (by norm_num)

/-- C1 counterexample: at capital 100000, option price 50.0, commission 0.35 and
    cap 999999, the compounding driver script's sizing step does NOT buy
    `floor(availableCapital / (optionPrice * 100 + commission))` (capped)
    contracts: it buys 1986 contracts, not 19, because its cost per contract
    omits the 100-share lot multiplier. -/
theorem claim_C1_counterexample :
    ¬ ((run_claude_backtest.calculate_position_size 100000 50 0.35 999999).num_contracts =
        min ⌊(100000 : ℚ) / (50 * 100 + 0.35)⌋ 999999) := by
  have h1 : ⌊(100000 : ℚ) / (50 + 0.35)⌋ = 1986 := by
    rw [Int.floor_eq_iff] <;> norm_num
  have h2 : ⌊(100000 : ℚ) / (50 * 100 + 0.35)⌋ = 19 := by
    rw [Int.floor_eq_iff] <;> norm_num
  have harg : (100000 : ℚ) * run_claude_backtest.TARGET_CAPITAL_UTILIZATION / (50 + 0.35) =
      100000 / (50 + 0.35) := by
    norm_num [run_claude_backtest.TARGET_CAPITAL_UTILIZATION]
  have hn : min (py_int ((100000 : ℚ) * run_claude_backtest.TARGET_CAPITAL_UTILIZATION /
      (50 + 0.35))) (999999 : ℤ) = 1986 := by
    rw [harg]
    unfold py_int
    rw [if_pos (by norm_num), h1]
    exact min_eq_left (by norm_num)
  rw [run_claude_backtest.claude_position_size_success 100000 50 0.35 999999 1986
    (by norm_num) hn, h2]
  norm_num

/-- C1 (amended): only the shared capital-management module sizes a position as
    `floor(availableCapital / (optionPrice * 100 + commission))` capped at the
    per-trade limit, with leftover cash `availableCapital - n * costPerContract`.
    The Claude driver script prices a contract as `optionPrice + commission`
    (no lot multiplier) and the Gemini driver buys
    `floor(availableCapital / optionPrice)` contracts with no commission and no
    cap. -/
theorem claim_C1_thm (a p c xp : ℚ) (cap : ℤ) (entry_date exit_date : ℕ)
    (det : gemini_compounding_backtest.OptionDetails)
    (ha : 0 < a) (hp : 0 < p) (hc : 0 ≤ c) (hcap : 1 ≤ cap)
    (hdates : entry_date < exit_date) (haff : 1 ≤ ⌊a / p⌋) :
    ((capital_management.calculate_position_size a p c cap).num_contracts =
        min ⌊a / (p * 100 + c)⌋ cap ∧
      (capital_management.calculate_position_size a p c cap).leftover_cash =
        some (a - ((capital_management.calculate_position_size a p c cap).num_contracts : ℚ) *
          (p * 100 + c))) ∧
    ((run_claude_backtest.calculate_position_size a p c cap).num_contracts =
        min ⌊a / (p + c)⌋ cap ∧
      (run_claude_backtest.calculate_position_size a p c cap).leftover_cash =
        a - ((run_claude_backtest.calculate_position_size a p c cap).num_contracts : ℚ) *
          (p + c)) ∧
    gemini_compounding_backtest.quarter_step a
        ⟨some entry_date, some exit_date, some det, some ⟨p, xp⟩⟩ =
      (⌊a / p⌋ * xp + (a - ⌊a / p⌋ * p), true) := by
  have h1 : ¬(a ≤ 0 ∨ p ≤ 0) := by push_neg; exact ⟨ha, hp⟩
  have hcost : (0 : ℚ) < p * 100 + c := by nlinarith
  refine ⟨?_, ?_, ?_⟩
  · by_cases h2 : a < p * 100 + c
    · have hfl0 : ⌊a / (p * 100 + c)⌋ = 0 := by
        rw [Int.floor_eq_zero_iff]
        constructor
        · positivity
        · rw [div_lt_one hcost]; exact h2
      rw [capital_management.calculate_position_size_insufficient a p c cap h1 h2, hfl0]
      dsimp only
      have hcap0 : (0 : ℤ) ≤ cap := by omega
      refine ⟨(min_eq_left hcap0).symm, ?_⟩
      norm_num
    · have hfl1 : 1 ≤ ⌊a / (p * 100 + c)⌋ := by
        rw [Int.le_floor]
        push_cast
        rw [le_div_iff₀ hcost]
        linarith [not_lt.1 h2]
      have hne : ¬ min ⌊a / (p * 100 + c)⌋ cap = 0 := by
        have : (1 : ℤ) ≤ min ⌊a / (p * 100 + c)⌋ cap := le_min hfl1 hcap
        omega
      rw [capital_management.calculate_position_size_success a p c cap
        (min ⌊a / (p * 100 + c)⌋ cap) h1 h2 rfl hne]
      exact ⟨rfl, by rw [Option.some.injEq]; ring⟩
  · have hpc : (0 : ℚ) < p + c := by linarith
    have harg : a * run_claude_backtest.TARGET_CAPITAL_UTILIZATION / (p + c) = a / (p + c) := by
      rw [run_claude_backtest.TARGET_CAPITAL_UTILIZATION, mul_one]
    have hpy : py_int (a * run_claude_backtest.TARGET_CAPITAL_UTILIZATION / (p + c)) =
        ⌊a / (p + c)⌋ := by
      rw [harg]
      unfold py_int
      rw [if_pos (by positivity)]
    rw [run_claude_backtest.claude_position_size_success a p c cap (min ⌊a / (p + c)⌋ cap)
      (not_le.2 hp) (by rw [hpy])]
    exact ⟨rfl, by ring⟩
  · unfold gemini_compounding_backtest.quarter_step
    simp only [if_neg (not_le.2 hdates), if_neg (not_le.2 hp),
      if_neg (show ¬ ⌊a / p⌋ = 0 by omega)]

/-- C1 witness: the amended statement instantiated at capital 100000, price 50,
    commission 0.35, exit price 60, cap 999999 and a concrete first quarter. -/
theorem claim_C1_witness :
    (((capital_management.calculate_position_size 100000 50 0.35 999999).num_contracts =
        min ⌊(100000 : ℚ) / (50 * 100 + 0.35)⌋ 999999 ∧
      (capital_management.calculate_position_size 100000 50 0.35 999999).leftover_cash =
        some (100000 -
          ((capital_management.calculate_position_size 100000 50 0.35 999999).num_contracts : ℚ) *
          (50 * 100 + 0.35))) ∧
    ((run_claude_backtest.calculate_position_size 100000 50 0.35 999999).num_contracts =
        min ⌊(100000 : ℚ) / (50 + 0.35)⌋ 999999 ∧
      (run_claude_backtest.calculate_position_size 100000 50 0.35 999999).leftover_cash =
        100000 -
          ((run_claude_backtest.calculate_position_size 100000 50 0.35 999999).num_contracts : ℚ) *
          (50 + 0.35)) ∧
    gemini_compounding_backtest.quarter_step 100000
        ⟨some 20240102, some 20240328, some ⟨20250117, 150000, 170⟩, some ⟨50, 60⟩⟩ =
      ((⌊(100000 : ℚ) / 50⌋ : ℚ) * 60 + (100000 - (⌊(100000 : ℚ) / 50⌋ : ℚ) * 50), true)) :=
  claim_C1_thm 100000 50 0.35 60 999999 20240102 20240328 ⟨20250117, 150000, 170⟩
    (by norm_num) (by norm_num) (by norm_num) (by norm_num) (by norm_num)
    (by
      have h : (100000 : ℚ) / 50 = ((2000 : ℤ) : ℚ) := by norm_num
      rw [h, Int.floor_intCast]
      norm_num)

namespace smart_leaps_backtest

/-- The `cache_type` strings used by smart_leaps_backtest.py. -/
inductive CacheType where
  | success
  | market_closed
  | first_market_day
  | temporary_failure
  | unknown
  deriving DecidableEq

/-- The `error` strings produced by the response classifiers. -/
inductive ErrorKind where
  | market_closed
  | no_data_available
  | rate_limit
  | timeout
  | server_error
  | unauthorized
  | network_error
  | no_api_key
  | json_decode
  | http_error
  | unexpected_format
  | unknown
  deriving DecidableEq

/-- Constant `CACHE_FOREVER_TYPES = ["success", "market_closed", "first_market_day"]`. -/
def CACHE_FOREVER_TYPES : List CacheType :=
  [CacheType.success, CacheType.market_closed, CacheType.first_market_day]

/-- A provider cache entry as produced by the classifiers plus `cache_result`.
    Timestamps are modelled in hours, so the entry's age in hours is
    `now - cached_at`. -/
structure CacheEntry where
  success : Bool
  error : Option ErrorKind
  cache_type : CacheType
  cached_at : Option ℚ
  deriving DecidableEq

/-- Embedding of `is_cache_entry_valid`
    (mcp-trader/smart_leaps_backtest.py, lines 90-102). -/
def is_cache_entry_valid (now : ℚ) (entry : CacheEntry) : Bool :=
  match entry.cached_at with
  | none => false
  | some cached_time =>
    if entry.cache_type ∈ CACHE_FOREVER_TYPES then true
    else decide (now - cached_time < 1)

/-- Embedding of `get_cached_result`: the cached entry is returned only if it
    is still valid (expired entries are evicted and `None` is returned). -/
def get_cached_result (now : ℚ) (entry : Option CacheEntry) : Option CacheEntry :=
  match entry with
  | some e => if is_cache_entry_valid now e then some e else none
  | none => none

/-- Whether `get_stock_price_with_smart_fallback`
    (mcp-trader/smart_leaps_backtest.py, lines 322-347) reaches the fresh
    `get_stock_price_tiingo` call for the given primary cache state: the cached
    block returns early only on a valid `success` or `market_closed` entry;
    a valid cached failure falls through to a fresh call. -/
def fresh_primary_call (now : ℚ) (entry : Option CacheEntry) : Bool :=
  match get_cached_result now entry with
  | some cached =>
    if cached.success then false
    else if cached.error = some ErrorKind.market_closed then false
    else true
  | none => true

/-- A provider cache entry shape actually produced by
    `classify_tiingo_response` / `classify_marketstack_response`:
    `success` entries, `market_closed` entries, or temporary failures whose
    error kind is never `market_closed`. -/
def well_formed_entry (e : CacheEntry) : Prop :=
  (e.cache_type = CacheType.success ∧ e.success = true) ∨
  (e.cache_type = CacheType.market_closed ∧ e.success = false ∧
    e.error = some ErrorKind.market_closed) ∨
  (e.cache_type = CacheType.temporary_failure ∧ e.success = false ∧
    e.error ≠ some ErrorKind.market_closed)

end smart_leaps_backtest

/-- C2 counterexample: a `temporary_failure` entry cached half an hour ago is
    still unexpired (`is_cache_entry_valid` accepts it), yet the resolution
    path still makes a fresh primary-provider call, contradicting the claim
    that no fresh primary call is made while an unexpired cached entry exists. -/
theorem claim_C2_counterexample :
    smart_leaps_backtest.is_cache_entry_valid (1/2)
      ⟨false, some .rate_limit, .temporary_failure, some 0⟩ = true ∧
    smart_leaps_backtest.fresh_primary_call (1/2)
      (some ⟨false, some .rate_limit, .temporary_failure, some 0⟩) = true := by
  have hvalid : smart_leaps_backtest.is_cache_entry_valid (2⁻¹)
      ⟨false, some .rate_limit, .temporary_failure, some 0⟩ = true := by
    simp only [smart_leaps_backtest.is_cache_entry_valid,
      smart_leaps_backtest.CACHE_FOREVER_TYPES]
    norm_num
  have h12 : (1 / 2 : ℚ) = 2⁻¹ := by norm_num
  refine ⟨h12 ▸ hvalid, ?_⟩
  rw [h12]
  simp [smart_leaps_backtest.fresh_primary_call, smart_leaps_backtest.get_cached_result,
    hvalid]

/-- C2 (amended): a fresh primary-provider call is made exactly when the
    primary cache entry is absent, expired, or a still-valid temporary
    failure; only an unexpired `Success` or `MarketClosed` entry suppresses
    it.  `Success` and `MarketClosed` entries never expire, and
    `temporary_failure` entries are valid exactly while less than one hour
    old. -/
theorem claim_C2_thm (now : ℚ) (e : smart_leaps_backtest.CacheEntry) :
    (∀ t : ℚ, e.cached_at = some t →
      ((e.cache_type = smart_leaps_backtest.CacheType.success ∨
        e.cache_type = smart_leaps_backtest.CacheType.market_closed) →
        smart_leaps_backtest.is_cache_entry_valid now e = true) ∧
      (e.cache_type = smart_leaps_backtest.CacheType.temporary_failure →
        (smart_leaps_backtest.is_cache_entry_valid now e = true ↔ now - t < 1))) ∧
    (smart_leaps_backtest.well_formed_entry e →
      (smart_leaps_backtest.fresh_primary_call now (some e) = false ↔
        (smart_leaps_backtest.is_cache_entry_valid now e = true ∧
          (e.cache_type = smart_leaps_backtest.CacheType.success ∨
           e.cache_type = smart_leaps_backtest.CacheType.market_closed)))) ∧
    smart_leaps_backtest.fresh_primary_call now none = true := by
  refine ⟨?_, ?_, rfl⟩
  · intro t ht
    constructor
    · intro hty
      simp only [smart_leaps_backtest.is_cache_entry_valid, ht]
      rcases hty with h | h <;> simp [smart_leaps_backtest.CACHE_FOREVER_TYPES, h]
    · intro hty
      simp only [smart_leaps_backtest.is_cache_entry_valid, ht, hty]
      simp [smart_leaps_backtest.CACHE_FOREVER_TYPES]
  · intro hwf
    by_cases hv : smart_leaps_backtest.is_cache_entry_valid now e = true
    · rcases hwf with ⟨hty, hs⟩ | ⟨hty, hs, he⟩ | ⟨hty, hs, he⟩
      · simp [smart_leaps_backtest.fresh_primary_call,
          smart_leaps_backtest.get_cached_result, hv, hs, hty]
      · simp [smart_leaps_backtest.fresh_primary_call,
          smart_leaps_backtest.get_cached_result, hv, hs, he, hty]
      · simp [smart_leaps_backtest.fresh_primary_call,
          smart_leaps_backtest.get_cached_result, hv, hs, he, hty]
    · rw [Bool.not_eq_true] at hv
      simp [smart_leaps_backtest.fresh_primary_call,
        smart_leaps_backtest.get_cached_result, hv]

/-- C2 witness: the amended statement instantiated at a `market_closed` entry
    cached at time 0 and resolved five hours later. -/
theorem claim_C2_witness :
    ((∀ t : ℚ,
      (smart_leaps_backtest.CacheEntry.mk false (some .market_closed)
          .market_closed (some 0)).cached_at = some t →
      (((smart_leaps_backtest.CacheEntry.mk false (some .market_closed)
            .market_closed (some 0)).cache_type = smart_leaps_backtest.CacheType.success ∨
        (smart_leaps_backtest.CacheEntry.mk false (some .market_closed)
            .market_closed (some 0)).cache_type =
          smart_leaps_backtest.CacheType.market_closed) →
        smart_leaps_backtest.is_cache_entry_valid 5
          (smart_leaps_backtest.CacheEntry.mk false (some .market_closed)
            .market_closed (some 0)) = true) ∧
      ((smart_leaps_backtest.CacheEntry.mk false (some .market_closed)
          .market_closed (some 0)).cache_type =
          smart_leaps_backtest.CacheType.temporary_failure →
        (smart_leaps_backtest.is_cache_entry_valid 5
          (smart_leaps_backtest.CacheEntry.mk false (some .market_closed)
            .market_closed (some 0)) = true ↔ (5 : ℚ) - t < 1))) ∧
    (smart_leaps_backtest.well_formed_entry
        (smart_leaps_backtest.CacheEntry.mk false (some .market_closed)
          .market_closed (some 0)) →
      (smart_leaps_backtest.fresh_primary_call 5
          (some (smart_leaps_backtest.CacheEntry.mk false (some .market_closed)
            .market_closed (some 0))) = false ↔
        (smart_leaps_backtest.is_cache_entry_valid 5
            (smart_leaps_backtest.CacheEntry.mk false (some .market_closed)
              .market_closed (some 0)) = true ∧
          ((smart_leaps_backtest.CacheEntry.mk false (some .market_closed)
              .market_closed (some 0)).cache_type =
             smart_leaps_backtest.CacheType.success ∨
           (smart_leaps_backtest.CacheEntry.mk false (some .market_closed)
              .market_closed (some 0)).cache_type =
             smart_leaps_backtest.CacheType.market_closed)))) ∧
    smart_leaps_backtest.fresh_primary_call 5 none = true) :=
  claim_C2_thm 5 (smart_leaps_backtest.CacheEntry.mk false (some .market_closed)
    .market_closed (some 0))
